import Mathlib

/-!
# easylogs/logs-testing: lifecycle, fan-out, generators and sink

A shallow embedding of the Go sources

* `src/main.go` (globals `stopChan`, `isRunning`, `stopLogGeneration`),
* `src/web_server.go` (`handleStart`, `handleStop`, `handleWebSocket`, `broadcastLog`),
* `src/log_generators.go` (the four web-server generators),
* `src/opensearch_helpers.go` (`LogEntry`, `bulkIndexLogs`),
* `src/cmd/test-logs/main.go` (the command-line generators and `sendLogs`).

Goroutines are modelled by an interleaving semantics: every atomic step of the
program is an `Action`, and `exec` runs a schedule (a list of actions).
Channels are natural-number identifiers; `make(chan struct{})` allocates the
next identifier and `close` records the identifier in `closed`.
-/

namespace LogsTesting

/-! ## Lifecycle controller (`src/main.go`, `src/web_server.go`) -/

/-- HTTP status written by a handler. -/
inductive Resp
  | ok200
  | badRequest400
  | methodNotAllowed405
  | conflict409
deriving DecidableEq, Repr

/-- Control point of one generator goroutine, whose body is
`for { select { case <-ticker.C: ...; case <-stopChan: return } }`. -/
inductive PC
  /-- about to enter `select`; the operand `stopChan` is not yet evaluated -/
  | top
  /-- inside `select`, with the operand `stopChan` evaluated to channel `ch` -/
  | waiting (ch : Nat)
  /-- executing the body of `case <-ticker.C` -/
  | inTick
  /-- returned; the deferred `ticker.Stop()` and `wg.Done()` have run -/
  | exited
deriving DecidableEq, Repr

/-- One generator goroutine. -/
structure Goroutine where
  /-- index of the `handleStart` call (and so of the WaitGroup) that launched it -/
  run : Nat
  /-- position among the `go` statements: 0 API, 1 database, 2 user activity, 3 system metrics -/
  kind : Nat
  pc : PC
  /-- the channel `ticker.C` (capacity one) holds an undelivered tick -/
  tick : Bool
deriving DecidableEq, Repr

/-- Global state of the web server process as far as the lifecycle is concerned. -/
structure Sys where
  /-- the variable `isRunning` -/
  isRunning : Bool
  /-- the channel currently stored in the variable `stopChan` -/
  stopChan : Nat
  /-- channels on which `close` has been called -/
  closed : List Nat
  /-- next identifier handed out by `make(chan struct{})` -/
  nextChan : Nat
  /-- every generator goroutine launched so far, in launch order -/
  gens : List Goroutine
  /-- number of successful `handleStart` calls so far -/
  nextRun : Nat
  /-- runs whose waiter goroutine (`wg.Wait(); isRunning = false`) has finished -/
  waited : List Nat
  /-- generator indices, one entry per tick begun, in order -/
  began : List Nat
  /-- generator indices, one entry per tick whose events were published, in order -/
  published : List Nat
deriving DecidableEq, Repr

/-- State at process start: `stopChan = make(chan struct{})`, `isRunning` false. -/
def Sys.init : Sys :=
  { isRunning := false, stopChan := 0, closed := [], nextChan := 1, gens := [],
    nextRun := 0, waited := [], began := [], published := [] }

/-- The four goroutines launched by one `handleStart`, in the order of the `go` statements. -/
def spawn (run : Nat) : List Goroutine :=
  [ { run := run, kind := 0, pc := PC.top, tick := false },
    { run := run, kind := 1, pc := PC.top, tick := false },
    { run := run, kind := 2, pc := PC.top, tick := false },
    { run := run, kind := 3, pc := PC.top, tick := false } ]

/-- Handler `handleStart` of `src/web_server.go`. -/
def handleStart (method : String) (s : Sys) : Resp × Sys :=
  if method ≠ "POST" then (Resp.methodNotAllowed405, s)
  else if s.isRunning then (Resp.conflict409, s)
  else
    (Resp.ok200,
      { s with
        stopChan := s.nextChan
        nextChan := s.nextChan + 1
        isRunning := true
        gens := s.gens ++ spawn s.nextRun
        nextRun := s.nextRun + 1 })

/-- Handler `handleStop` of `src/web_server.go`; `none` is the run-time panic
of `close` on an already closed channel. -/
def handleStop (method : String) (s : Sys) : Option (Resp × Sys) :=
  if method ≠ "POST" then some (Resp.methodNotAllowed405, s)
  else if !s.isRunning then some (Resp.badRequest400, s)
  else if s.stopChan ∈ s.closed then none
  else some (Resp.ok200, { s with closed := s.stopChan :: s.closed, isRunning := false })

/-- Function `stopLogGeneration` of `src/main.go` (it has no caller). -/
def stopLogGeneration (s : Sys) : Option Sys :=
  if s.isRunning then
    if s.stopChan ∈ s.closed then none
    else some { s with
      closed := s.stopChan :: s.closed
      isRunning := false
      stopChan := s.nextChan
      nextChan := s.nextChan + 1 }
  else some s

/-- Which case of the generator's `select` proceeds: `some true` the ticker
case, `some false` the stop case, `none` when the goroutine stays blocked.
When both communications can proceed Go chooses one pseudo-randomly; `pick`
is that choice. -/
def selectCase (tickReady stopReady pick : Bool) : Option Bool :=
  match tickReady, stopReady with
  | true, true => some pick
  | true, false => some true
  | false, true => some false
  | false, false => none

/-- Atomic steps of the interleaving semantics. -/
inductive Action
  /-- a request to `/start` -/
  | start (method : String)
  /-- a request to `/stop` -/
  | stop (method : String)
  /-- the runtime timer sends on generator `g`'s `ticker.C` (dropped when full) -/
  | timer (g : Nat)
  /-- generator `g` enters `select` and evaluates the operand `stopChan` -/
  | arrive (g : Nat)
  /-- generator `g`, inside `select`, proceeds with a ready case -/
  | choose (g : Nat) (pick : Bool)
  /-- generator `g` completes the body of the ticker case -/
  | finish (g : Nat)
  /-- the waiter goroutine of run `r` returns from `wg.Wait()` and clears `isRunning` -/
  | supervise (r : Nat)
deriving DecidableEq, Repr

/-- Replace generator `g`. -/
def setGen (s : Sys) (g : Nat) (x : Goroutine) : Sys :=
  { s with gens := s.gens.set g x }

/-- Counter of the WaitGroup of run `r`: its goroutines that have not called `wg.Done()`. -/
def wgCount (s : Sys) (r : Nat) : Nat :=
  (s.gens.filter (fun x => x.run = r ∧ x.pc ≠ PC.exited)).length

/-- The runtime timer sends on `ticker.C` of generator `g`; after `ticker.Stop()` no tick arrives. -/
def timerStep (s : Sys) (g : Nat) : Sys :=
  match s.gens[g]? with
  | some x => if x.pc = PC.exited then s else setGen s g { x with tick := true }
  | none => s

/-- Generator `g` enters `select`: the operand `stopChan` (the global variable) is evaluated. -/
def arriveStep (s : Sys) (g : Nat) : Sys :=
  match s.gens[g]? with
  | some x => if x.pc = PC.top then setGen s g { x with pc := PC.waiting s.stopChan } else s
  | none => s

/-- Generator `g`, inside `select`, proceeds: with the ticker case it starts the
tick body, with the stop case it returns. -/
def chooseStep (s : Sys) (g : Nat) (pick : Bool) : Sys :=
  match s.gens[g]? with
  | some x =>
    match x.pc with
    | PC.waiting ch =>
      match selectCase x.tick (decide (ch ∈ s.closed)) pick with
      | some true =>
        { setGen s g { x with pc := PC.inTick, tick := false } with began := s.began ++ [g] }
      | some false => setGen s g { x with pc := PC.exited }
      | none => s
    | _ => s
  | none => s

/-- Generator `g` completes the tick body (events broadcast, batch shipped) and loops. -/
def finishStep (s : Sys) (g : Nat) : Sys :=
  match s.gens[g]? with
  | some x =>
    if x.pc = PC.inTick then
      { setGen s g { x with pc := PC.top } with published := s.published ++ [g] }
    else s
  | none => s

/-- The waiter goroutine of run `r`: `wg.Wait(); isRunning = false`. -/
def superviseStep (s : Sys) (r : Nat) : Sys :=
  if r < s.nextRun ∧ r ∉ s.waited ∧ wgCount s r = 0 then
    { s with isRunning := false, waited := r :: s.waited }
  else s

/-- One atomic step; an action that is not enabled leaves the state as it is,
`none` is a panic. -/
def step (s : Sys) : Action → Option Sys
  | Action.start m => some (handleStart m s).2
  | Action.stop m => (handleStop m s).map Prod.snd
  | Action.timer g => some (timerStep s g)
  | Action.arrive g => some (arriveStep s g)
  | Action.choose g pick => some (chooseStep s g pick)
  | Action.finish g => some (finishStep s g)
  | Action.supervise r => some (superviseStep s r)

/-- Run a schedule. -/
def exec : List Action → Sys → Option Sys
  | [], s => some s
  | a :: as, s => (step s a).bind (exec as)

/-- Generators that have not returned. -/
def live (s : Sys) : List Goroutine :=
  s.gens.filter (fun x => x.pc ≠ PC.exited)

/-- Runs that still have a live generator. -/
def liveRuns (s : Sys) : List Nat :=
  ((live s).map Goroutine.run).dedup

/-- Control point of generator `g`, `none` for an index not launched so far. -/
def pcOf (s : Sys) (g : Nat) : Option PC :=
  (s.gens[g]?).map Goroutine.pc

/-- The channel discipline every reachable state obeys. -/
structure ChanInv (s : Sys) : Prop where
  closed_lt : ∀ c ∈ s.closed, c < s.nextChan
  cur_lt : s.stopChan < s.nextChan
  cur_open : s.isRunning = true → s.stopChan ∉ s.closed

end LogsTesting

/-! ## Lifecycle: schedules used as concrete inputs -/

namespace LogsTesting

/-- Start; the four generators of run 0 take a tick and are inside the tick
body; Stop; Start again at once; the generators of run 0 finish their tick and
come back to `select`, where they evaluate the new `stopChan`. -/
def overlapSchedule : List Action :=
  [ Action.start "POST",
    Action.arrive 0, Action.arrive 1, Action.arrive 2, Action.arrive 3,
    Action.timer 0, Action.timer 1, Action.timer 2, Action.timer 3,
    Action.choose 0 true, Action.choose 1 true, Action.choose 2 true, Action.choose 3 true,
    Action.stop "POST",
    Action.start "POST",
    Action.finish 0, Action.finish 1, Action.finish 2, Action.finish 3,
    Action.arrive 0, Action.arrive 1, Action.arrive 2, Action.arrive 3 ]

/-- Start; the four generators of run 0 block in `select` (no tick yet); Stop. -/
def staleWaiterBefore : List Action :=
  [ Action.start "POST",
    Action.arrive 0, Action.arrive 1, Action.arrive 2, Action.arrive 3,
    Action.stop "POST" ]

/-- What happens between the second and the third Start: the generators of
run 0 observe their closed channel and return, and the waiter of run 0 clears
`isRunning`. -/
def staleWaiterBetween : List Action :=
  [ Action.choose 0 false, Action.choose 1 false, Action.choose 2 false, Action.choose 3 false,
    Action.supervise 0 ]

/-- Start; generator 0 takes a tick; a second tick arrives while it is in the
body; Stop closes the channel; the generator finishes the tick in flight and
arrives at `select` with both cases ready. -/
def stopDuringTick : List Action :=
  [ Action.start "POST",
    Action.arrive 0, Action.timer 0, Action.choose 0 true,
    Action.timer 0,
    Action.stop "POST",
    Action.finish 0, Action.arrive 0 ]

end LogsTesting

/-! ## Event model (`LogEntry` in `src/opensearch_helpers.go` and `src/cmd/test-logs/main.go`) -/

namespace LogsTesting

/-- A `float64`, kept as its IEEE-754 bit pattern; no arithmetic is interpreted. -/
structure F64 where
  bits : Nat
deriving DecidableEq, Repr

/-- A value stored in a metadata map (`map[string]interface{}`). -/
inductive MetaValue
  | str (s : String)
  | int (i : Int)
  | float (f : F64)
  /-- a Go value that `encoding/json` rejects (a channel, a function, NaN, ...) -/
  | unsupported
deriving DecidableEq, Repr

/-- The struct `LogEntry`; `Metadata` is `none` for the nil interface and
otherwise the key/value pairs of the map stored in it. -/
structure LogEntry where
  Timestamp : String
  Level : String
  Service : String
  Message : String
  StatusCode : Int
  Method : String
  Path : String
  Duration : Int
  UserID : String
  Action : String
  Metadata : Option (List (String × MetaValue))
  Environment : String
deriving DecidableEq, Repr

/-- The zero value of `LogEntry`, as produced by `make([]LogEntry, n)`. -/
def LogEntry.zero : LogEntry :=
  { Timestamp := "", Level := "", Service := "", Message := "", StatusCode := 0, Method := "",
    Path := "", Duration := 0, UserID := "", Action := "", Metadata := none, Environment := "" }

end LogsTesting

/-! ## Broadcast hub (`clients`, `handleWebSocket`, `broadcastLog` in `src/web_server.go`) -/

namespace LogsTesting

/-- The subscriber registry and what went over the wire. Connections
(`*websocket.Conn`) are natural-number identifiers. -/
structure Hub where
  /-- keys of the map `clients`; the order is the order in which `range` visits them -/
  clients : List Nat
  /-- connections on which `Close` has been called, in call order -/
  closed : List Nat
  /-- every `WriteJSON` call so far: connection, value, and whether it returned no error -/
  wire : List (Nat × LogEntry × Bool)
deriving DecidableEq, Repr

/-- No subscriber, nothing sent. -/
def Hub.empty : Hub :=
  { clients := [], closed := [], wire := [] }

/-- Registration in `handleWebSocket`: `clients[conn] = true`. -/
def register (conn : Nat) (h : Hub) : Hub :=
  if conn ∈ h.clients then h else { h with clients := h.clients ++ [conn] }

/-- Deferred clean-up in `handleWebSocket`: `delete(clients, conn); conn.Close()`. -/
def unregister (conn : Nat) (h : Hub) : Hub :=
  { h with clients := h.clients.erase conn, closed := h.closed ++ [conn] }

/-- Body of the `range` loop of `broadcastLog` for one client; `ok client`
tells whether `client.WriteJSON(log)` returns a nil error. -/
def broadcastOne (ok : Nat → Bool) (log : LogEntry) (h : Hub) (client : Nat) : Hub :=
  if ok client then
    { h with wire := h.wire ++ [(client, log, true)] }
  else
    { h with
      wire := h.wire ++ [(client, log, false)]
      closed := h.closed ++ [client]
      clients := h.clients.erase client }

/-- Function `broadcastLog`: the loop visits every key present at entry once
(the only key deleted during the iteration is the one being visited). -/
def broadcastLog (ok : Nat → Bool) (log : LogEntry) (h : Hub) : Hub :=
  h.clients.foldl (broadcastOne ok log) h

/-- Connections to which the step from `before` to `after` attempted a send, in order. -/
def attempted (before after : Hub) : List Nat :=
  (after.wire.drop before.wire.length).map Prod.fst

/-- What subscriber `conn` has received: the values of its successful `WriteJSON` calls. -/
def observed (h : Hub) (conn : Nat) : List LogEntry :=
  h.wire.filterMap (fun w => if w.1 = conn ∧ w.2.2 = true then some w.2.1 else none)

/-- Operations on the hub. -/
inductive HubOp
  | register (conn : Nat)
  | unregister (conn : Nat)
  | publish (e : LogEntry)
deriving DecidableEq, Repr

/-- One hub operation in a run where no send fails. -/
def applyOp (h : Hub) : HubOp → Hub
  | HubOp.register c => register c h
  | HubOp.unregister c => unregister c h
  | HubOp.publish e => broadcastLog (fun _ => true) e h

/-- A sequence of hub operations in a run where no send fails. -/
def runOps (ops : List HubOp) (h : Hub) : Hub :=
  ops.foldl applyOp h

/-- Specification side of the fan-out, following the claim's words: the events
published while `conn` was in the registry, in publish order; `reg` tells
whether `conn` is registered before the first operation. -/
def publishedWhileRegistered (conn : Nat) : Bool → List HubOp → List LogEntry
  | _, [] => []
  | reg, HubOp.register c :: ops => publishedWhileRegistered conn (reg || decide (c = conn)) ops
  | reg, HubOp.unregister c :: ops => publishedWhileRegistered conn (reg && !decide (c = conn)) ops
  | reg, HubOp.publish e :: ops =>
    if reg then e :: publishedWhileRegistered conn reg ops
    else publishedWhileRegistered conn reg ops

end LogsTesting

/-! ## Generators (`src/log_generators.go`, `src/cmd/test-logs/main.go`) -/

namespace LogsTesting

/-- A wall-clock reading, as the fields `time.Time` is formatted from. -/
structure Time where
  year : Nat
  month : Nat
  day : Nat
  hour : Nat
  minute : Nat
  second : Nat
  /-- zone offset in seconds east of UTC -/
  offset : Int
deriving DecidableEq, Repr

/-- Decimal rendering of `n`, padded with zeros on the left to `width` digits. -/
def pad (width n : Nat) : String :=
  String.mk (List.replicate (width - (toString n).length) '0') ++ toString n

/-- Zone suffix of the layout `Z07:00`. -/
def zoneSuffix (offset : Int) : String :=
  if offset = 0 then "Z"
  else
    (if Int.tdiv offset 60 < 0 then "-" else "+") ++
      pad 2 ((Int.tdiv offset 60).natAbs / 60) ++ ":" ++
      pad 2 ((Int.tdiv offset 60).natAbs % 60)

/-- The call `t.Format(time.RFC3339)`, layout `2006-01-02T15:04:05Z07:00`. -/
def formatRFC3339 (t : Time) : String :=
  pad 4 t.year ++ "-" ++ pad 2 t.month ++ "-" ++ pad 2 t.day ++ "T" ++
    pad 2 t.hour ++ ":" ++ pad 2 t.minute ++ ":" ++ pad 2 t.second ++ zoneSuffix t.offset

/-- Everything a generator reads from outside: the pseudo-random source, the
clock, and the rendering of floats. The three positions count the reads made
so far. -/
structure World where
  /-- raw value behind the k-th call of `rand.Intn` -/
  rand : Nat → Nat
  /-- value of the k-th expression `rand.Float64() * 100` -/
  usage : Nat → F64
  /-- reading of the k-th call of `time.Now()` -/
  clock : Nat → Time
  /-- text produced for a `float64` by the verb `%.2f` -/
  fmtFloat : F64 → String
  rpos : Nat
  fpos : Nat
  tpos : Nat

/-- A computation that reads the world and may panic (`none`). -/
def Gen (α : Type) : Type := World → Option (α × World)

/-- Return a value without touching the world. -/
def Gen.pure {α : Type} (a : α) : Gen α := fun w => some (a, w)

/-- Sequencing. -/
def Gen.bind {α β : Type} (g : Gen α) (f : α → Gen β) : Gen β := fun w =>
  match g w with
  | none => none
  | some (a, w') => f a w'

instance : Monad Gen where
  pure := Gen.pure
  bind := Gen.bind

/-- The call `rand.Intn(n)`: a value in `[0, n)`, here the raw draw reduced
modulo `n`, so that every value below `n` is the outcome in some world; it
panics when `n` is not positive. -/
def intn (n : Nat) : Gen Nat := fun w =>
  if n = 0 then none else some (w.rand w.rpos % n, { w with rpos := w.rpos + 1 })

/-- The expression `rand.Float64() * 100`. -/
def float64x100 : Gen F64 := fun w =>
  some (w.usage w.fpos, { w with fpos := w.fpos + 1 })

/-- The expression `time.Now().Format(time.RFC3339)`. -/
def nowRFC3339 : Gen String := fun w =>
  some (formatRFC3339 (w.clock w.tpos), { w with tpos := w.tpos + 1 })

/-- The verb `%.2f` applied to `x`. -/
def fmt2f (x : F64) : Gen String := fun w => some (w.fmtFloat x, w)

/-- The index expression `xs[i]`, which panics out of range. -/
def index {α : Type} (xs : List α) (i : Nat) : Gen α := fun w =>
  match xs[i]? with
  | some x => some (x, w)
  | none => none

def logLevels : List String := ["INFO", "WARN", "ERROR", "DEBUG"]

def environments : List String := ["production", "staging", "development"]

def apiPaths : List String :=
  ["/api/users", "/api/products", "/api/orders", "/api/auth", "/api/payments"]

def httpMethods : List String := ["GET", "POST", "PUT", "DELETE"]

def userActions : List String := ["login", "logout", "purchase", "view_item", "update_profile"]

def dbOperations : List String := ["SELECT", "INSERT", "UPDATE", "DELETE"]

def services : List String :=
  ["auth-service", "user-service", "payment-service", "inventory-service",
    "notification-service"]

/-- Only in `src/cmd/test-logs/main.go`. -/
def userIDs : List String := ["user123", "user456", "user789", "user101", "user202"]

/-- The literal `[]int{200, 201, 400, 401, 403, 404, 500}`. -/
def statusCodes : List Int := [200, 201, 400, 401, 403, 404, 500]

/-- The four generator categories. -/
inductive Category
  | api
  | database
  | userActivity
  | systemMetrics
deriving DecidableEq, Repr

end LogsTesting

namespace LogsTesting.Web

/-- One loop iteration of `generateAPILogs` in `src/log_generators.go`, up to
the value stored in `logs[i]`. -/
def apiEntry : Gen LogEntry := do
  let k ← intn 7
  let statusCode ← index statusCodes k
  let duration ← intn 1000
  let timestamp ← nowRFC3339
  let kLevel ← intn logLevels.length
  let level ← index logLevels kLevel
  let kService ← intn services.length
  let service ← index services kService
  let kMsgMethod ← intn httpMethods.length
  let msgMethod ← index httpMethods kMsgMethod
  let kMsgPath ← intn apiPaths.length
  let msgPath ← index apiPaths kMsgPath
  let kMethod ← intn httpMethods.length
  let method ← index httpMethods kMethod
  let kPath ← intn apiPaths.length
  let path ← index apiPaths kPath
  let kEnv ← intn environments.length
  let environment ← index environments kEnv
  pure
    { Timestamp := timestamp
      Level := level
      Service := service
      Message := "HTTP " ++ msgMethod ++ " " ++ msgPath ++ " completed in " ++
        toString duration ++ "ms with status " ++ toString statusCode
      StatusCode := statusCode
      Method := method
      Path := path
      Duration := duration
      UserID := ""
      Action := ""
      Metadata := none
      Environment := environment }

/-- One loop iteration of `generateDatabaseLogs` in `src/log_generators.go`. -/
def databaseEntry : Gen LogEntry := do
  let kOp ← intn dbOperations.length
  let operation ← index dbOperations kOp
  let duration ← intn 500
  let timestamp ← nowRFC3339
  let kLevel ← intn logLevels.length
  let level ← index logLevels kLevel
  let kService ← intn services.length
  let service ← index services kService
  let kEnv ← intn environments.length
  let environment ← index environments kEnv
  let kTable ← intn 3
  let table ← index ["users", "orders", "products"] kTable
  pure
    { Timestamp := timestamp
      Level := level
      Service := service
      Message := "Database operation " ++ operation ++ " completed in " ++
        toString duration ++ "ms"
      StatusCode := 0
      Method := ""
      Path := ""
      Duration := duration
      UserID := ""
      Action := operation
      Metadata := some [("query_type", MetaValue.str operation), ("table", MetaValue.str table)]
      Environment := environment }

/-- One loop iteration of `generateUserActivityLogs` in `src/log_generators.go`. -/
def userActivityEntry : Gen LogEntry := do
  let n ← intn 1000
  let kAction ← intn userActions.length
  let action ← index userActions kAction
  let timestamp ← nowRFC3339
  let kService ← intn services.length
  let service ← index services kService
  let kEnv ← intn environments.length
  let environment ← index environments kEnv
  pure
    { Timestamp := timestamp
      Level := "INFO"
      Service := service
      Message := "User " ++ ("user_" ++ toString n) ++ " performed action: " ++ action
      StatusCode := 0
      Method := ""
      Path := ""
      Duration := 0
      UserID := "user_" ++ toString n
      Action := action
      Metadata := none
      Environment := environment }

/-- One loop iteration of `generateSystemMetrics` in `src/log_generators.go`. -/
def systemMetricsEntry : Gen LogEntry := do
  let cpuUsage ← float64x100
  let memoryUsage ← float64x100
  let diskUsage ← float64x100
  let timestamp ← nowRFC3339
  let kLevel ← intn logLevels.length
  let level ← index logLevels kLevel
  let kService ← intn services.length
  let service ← index services kService
  let cpuText ← fmt2f cpuUsage
  let memoryText ← fmt2f memoryUsage
  let diskText ← fmt2f diskUsage
  let kEnv ← intn environments.length
  let environment ← index environments kEnv
  pure
    { Timestamp := timestamp
      Level := level
      Service := service
      Message := "System metrics - CPU: " ++ cpuText ++ "%, Memory: " ++ memoryText ++
        "%, Disk: " ++ diskText ++ "%"
      StatusCode := 0
      Method := ""
      Path := ""
      Duration := 0
      UserID := ""
      Action := ""
      Metadata := some [("cpu_usage", MetaValue.float cpuUsage),
        ("memory_usage", MetaValue.float memoryUsage), ("disk_usage", MetaValue.float diskUsage)]
      Environment := environment }

/-- The entry built by the generator of each category. -/
def entry : Category → Gen LogEntry
  | Category.api => apiEntry
  | Category.database => databaseEntry
  | Category.userActivity => userActivityEntry
  | Category.systemMetrics => systemMetricsEntry

end LogsTesting.Web

namespace LogsTesting.Cli

/-- One loop iteration of `generateAPILogs` in `src/cmd/test-logs/main.go`. -/
def apiEntry : Gen LogEntry := do
  let k ← intn 7
  let statusCode ← index statusCodes k
  let duration ← intn 1000
  let timestamp ← nowRFC3339
  let kLevel ← intn logLevels.length
  let level ← index logLevels kLevel
  let kService ← intn services.length
  let service ← index services kService
  let kMsgMethod ← intn httpMethods.length
  let msgMethod ← index httpMethods kMsgMethod
  let kMsgPath ← intn apiPaths.length
  let msgPath ← index apiPaths kMsgPath
  let kMethod ← intn httpMethods.length
  let method ← index httpMethods kMethod
  let kPath ← intn apiPaths.length
  let path ← index apiPaths kPath
  let kEnv ← intn environments.length
  let environment ← index environments kEnv
  pure
    { Timestamp := timestamp
      Level := level
      Service := service
      Message := "HTTP " ++ msgMethod ++ " " ++ msgPath ++ " completed in " ++
        toString duration ++ "ms with status " ++ toString statusCode
      StatusCode := statusCode
      Method := method
      Path := path
      Duration := duration
      UserID := ""
      Action := ""
      Metadata := none
      Environment := environment }

/-- One loop iteration of `generateDatabaseLogs` in `src/cmd/test-logs/main.go`. -/
def databaseEntry : Gen LogEntry := do
  let duration ← intn 500
  let kOp ← intn dbOperations.length
  let operation ← index dbOperations kOp
  let kTable ← intn 5
  let table ← index ["users", "products", "orders", "payments", "inventory"] kTable
  let timestamp ← nowRFC3339
  let kLevel ← intn logLevels.length
  let level ← index logLevels kLevel
  let kService ← intn services.length
  let service ← index services kService
  let kEnv ← intn environments.length
  let environment ← index environments kEnv
  let rows ← intn 100
  pure
    { Timestamp := timestamp
      Level := level
      Service := service
      Message := "Database operation " ++ operation ++ " on table " ++ table ++
        " completed in " ++ toString duration ++ "ms"
      StatusCode := 0
      Method := operation
      Path := table
      Duration := duration
      UserID := ""
      Action := ""
      Metadata := some [("table", MetaValue.str table), ("operation", MetaValue.str operation),
        ("rows", MetaValue.int (rows + 1 : Nat))]
      Environment := environment }

/-- One loop iteration of `generateUserActivityLogs` in `src/cmd/test-logs/main.go`. -/
def userActivityEntry : Gen LogEntry := do
  let kUser ← intn userIDs.length
  let userID ← index userIDs kUser
  let kAction ← intn userActions.length
  let action ← index userActions kAction
  let timestamp ← nowRFC3339
  let kEnv ← intn environments.length
  let environment ← index environments kEnv
  let kBrowser ← intn 4
  let browser ← index ["Chrome", "Firefox", "Safari", "Edge"] kBrowser
  let kPlatform ← intn 5
  let platform ← index ["Windows", "MacOS", "Linux", "iOS", "Android"] kPlatform
  let ip3 ← intn 255
  let ip4 ← intn 255
  pure
    { Timestamp := timestamp
      Level := "INFO"
      Service := "user-activity-service"
      Message := "User " ++ userID ++ " performed action: " ++ action
      StatusCode := 0
      Method := ""
      Path := ""
      Duration := 0
      UserID := userID
      Action := action
      Metadata := some [("browser", MetaValue.str browser), ("platform", MetaValue.str platform),
        ("ip", MetaValue.str ("192.168." ++ toString ip3 ++ "." ++ toString ip4))]
      Environment := environment }

/-- One loop iteration of `generateSystemMetrics` in `src/cmd/test-logs/main.go`. -/
def systemMetricsEntry : Gen LogEntry := do
  let cpuUsage ← float64x100
  let memoryUsage ← float64x100
  let diskUsage ← float64x100
  let timestamp ← nowRFC3339
  let cpuText ← fmt2f cpuUsage
  let memoryText ← fmt2f memoryUsage
  let diskText ← fmt2f diskUsage
  let kEnv ← intn environments.length
  let environment ← index environments kEnv
  let host ← intn 10
  pure
    { Timestamp := timestamp
      Level := "INFO"
      Service := "system-metrics"
      Message := "System metrics: CPU: " ++ cpuText ++ "%, Memory: " ++ memoryText ++
        "%, Disk: " ++ diskText ++ "%"
      StatusCode := 0
      Method := ""
      Path := ""
      Duration := 0
      UserID := ""
      Action := ""
      Metadata := some [("cpu", MetaValue.float cpuUsage), ("memory", MetaValue.float memoryUsage),
        ("disk", MetaValue.float diskUsage),
        ("host", MetaValue.str ("server-" ++ toString (host + 1)))]
      Environment := environment }

/-- The entry built by the generator of each category. -/
def entry : Category → Gen LogEntry
  | Category.api => apiEntry
  | Category.database => databaseEntry
  | Category.userActivity => userActivityEntry
  | Category.systemMetrics => systemMetricsEntry

end LogsTesting.Cli

namespace LogsTesting

/-- Calls a generator makes to the hub and to the sink, in order. -/
inductive Call
  | broadcastLog (log : LogEntry)
  | bulkIndexLogs (logs : List LogEntry)
  | sendLogs (logs : List LogEntry)
deriving DecidableEq, Repr

/-- The loop `for i := 0; i < batchSize; i++ { logs[i] = ...; emit(logs[i]) }`
with `remaining` iterations to go from index `i`; the assignment `logs[i] = e`
panics out of range. -/
def fillLoop (build : Gen LogEntry) (emit : LogEntry → List Call) :
    Nat → Nat → List LogEntry → List Call → Gen (List LogEntry × List Call)
  | 0, _, logs, calls => fun w => some ((logs, calls), w)
  | remaining + 1, i, logs, calls => fun w =>
    match build w with
    | none => none
    | some (e, w') =>
      match (logs.set i e)[i]? with
      | none => none
      | some stored =>
        fillLoop build emit remaining (i + 1) (logs.set i e) (calls ++ emit stored) w'

/-- Body of `case <-ticker.C` in the four generators of `src/log_generators.go`:
the calls made during one tick. -/
def Web.tick (c : Category) : Gen (List Call) := fun w =>
  match intn 4 w with
  | none => none
  | some (r, w1) =>
    match fillLoop (Web.entry c) (fun e => [Call.broadcastLog e]) (r + 2) 0
        (List.replicate (r + 2) LogEntry.zero) [] w1 with
    | none => none
    | some ((logs, calls), w2) => some (calls ++ [Call.bulkIndexLogs logs], w2)

/-- Body of `case <-ticker.C` in the four generators of
`src/cmd/test-logs/main.go`; `batchSize` is the flag `-batch-size`, and
`make([]LogEntry, batchSize)` panics when it is negative. -/
def Cli.tick (batchSize : Int) (c : Category) : Gen (List Call) := fun w =>
  if batchSize < 0 then none
  else
    match fillLoop (Cli.entry c) (fun _ => []) batchSize.toNat 0
        (List.replicate batchSize.toNat LogEntry.zero) [] w with
    | none => none
    | some ((logs, calls), w1) => some (calls ++ [Call.sendLogs logs], w1)

/-- Entries handed to `broadcastLog` in a call trace, in order. -/
def broadcasts : List Call → List LogEntry
  | [] => []
  | Call.broadcastLog e :: cs => e :: broadcasts cs
  | _ :: cs => broadcasts cs

/-- Batches handed to the sink (`bulkIndexLogs` or `sendLogs`) in a call trace, in order. -/
def shipped : List Call → List (List LogEntry)
  | [] => []
  | Call.bulkIndexLogs b :: cs => b :: shipped cs
  | Call.sendLogs b :: cs => b :: shipped cs
  | _ :: cs => shipped cs

/-! ## JSON encoding of `LogEntry` (struct tags in `src/opensearch_helpers.go`) -/

/-- A JSON value as far as `LogEntry` needs it. -/
inductive JsonValue
  | str (s : String)
  | num (i : Int)
  | obj (m : List (String × MetaValue))
deriving DecidableEq, Repr

/-- A field tagged `omitempty`: left out when its value is the zero value. -/
def omitEmpty (isZero : Bool) (key : String) (v : JsonValue) : List (String × JsonValue) :=
  if isZero then [] else [(key, v)]

/-- The object `encoding/json` writes for a `LogEntry`: the fields in struct
order; a field tagged `omitempty` is left out when its value is the zero value
(`0`, the empty string, the nil interface). -/
def LogEntry.jsonFields (e : LogEntry) : List (String × JsonValue) :=
  [("timestamp", JsonValue.str e.Timestamp), ("level", JsonValue.str e.Level),
    ("service", JsonValue.str e.Service), ("message", JsonValue.str e.Message)] ++
  omitEmpty (decide (e.StatusCode = 0)) "status_code" (JsonValue.num e.StatusCode) ++
  omitEmpty (decide (e.Method = "")) "method" (JsonValue.str e.Method) ++
  omitEmpty (decide (e.Path = "")) "path" (JsonValue.str e.Path) ++
  omitEmpty (decide (e.Duration = 0)) "duration" (JsonValue.num e.Duration) ++
  omitEmpty (decide (e.UserID = "")) "user_id" (JsonValue.str e.UserID) ++
  omitEmpty (decide (e.Action = "")) "action" (JsonValue.str e.Action) ++
  omitEmpty e.Metadata.isNone "metadata" (JsonValue.obj (e.Metadata.getD [])) ++
  [("environment", JsonValue.str e.Environment)]

/-- Keys of the JSON object written for `e`. -/
def LogEntry.jsonKeys (e : LogEntry) : List String :=
  e.jsonFields.map Prod.fst

/-- The keys tagged `omitempty`. -/
def optionalKeys : List String :=
  ["status_code", "method", "path", "duration", "user_id", "action", "metadata"]

/-- The optional fields that the struct literal of each generator assigns, read
off the source; `cli` selects `src/cmd/test-logs/main.go`. -/
def assignedKeys (cli : Bool) : Category → List String
  | Category.api => ["status_code", "method", "path", "duration"]
  | Category.database =>
    if cli then ["duration", "method", "path", "metadata"] else ["duration", "action", "metadata"]
  | Category.userActivity =>
    if cli then ["user_id", "action", "metadata"] else ["user_id", "action"]
  | Category.systemMetrics => ["metadata"]

/-- The entry builder of a generator, by program and category. -/
def entryOf (cli : Bool) (c : Category) : Gen LogEntry :=
  if cli then Cli.entry c else Web.entry c

/-- A world for concrete evaluation: every raw draw is `r`, the clock is fixed. -/
def World.const (r : Nat) : World :=
  { rand := fun _ => r
    usage := fun _ => { bits := 0 }
    clock := fun _ =>
      { year := 2024, month := 1, day := 2, hour := 3, minute := 4, second := 5, offset := 0 }
    fmtFloat := fun _ => "0.00"
    rpos := 0, fpos := 0, tpos := 0 }

end LogsTesting

namespace LogsTesting

/-- The computation `g` returns in every world, and what it returns satisfies `P`. -/
def Gen.ensures {α : Type} (g : Gen α) (P : α → Prop) : Prop :=
  ∀ w, ∃ a w', g w = some (a, w') ∧ P a

/-- What holds of every entry built by the generator of category `c` in the
web server (`cli = false`) or the command-line tool (`cli = true`). -/
structure EntryFacts (cli : Bool) (c : Category) (e : LogEntry) : Prop where
  timestamp : e.Timestamp ≠ ""
  level : e.Level ∈ logLevels
  environment : e.Environment ∈ environments
  statusCode : e.StatusCode ≠ 0 ↔ "status_code" ∈ assignedKeys cli c
  method : e.Method ≠ "" ↔ "method" ∈ assignedKeys cli c
  path : e.Path ≠ "" ↔ "path" ∈ assignedKeys cli c
  userID : e.UserID ≠ "" ↔ "user_id" ∈ assignedKeys cli c
  action : e.Action ≠ "" ↔ "action" ∈ assignedKeys cli c
  metadata : e.Metadata ≠ none ↔ "metadata" ∈ assignedKeys cli c
  duration : "duration" ∉ assignedKeys cli c → e.Duration = 0

end LogsTesting

namespace LogsTesting

/-- The well-formedness the claim asks of an emitted entry: a non-empty
timestamp, a level of the fixed enumeration, an environment of the fixed
enumeration. -/
def WellFormed (e : LogEntry) : Prop :=
  e.Timestamp ≠ "" ∧ e.Level ∈ ["INFO", "WARN", "ERROR", "DEBUG"] ∧
    e.Environment ∈ ["production", "staging", "development"]

end LogsTesting

/-! ## Batch sink (`bulkIndexLogs` in `src/opensearch_helpers.go`, `sendLogs` in
`src/cmd/test-logs/main.go`) -/

namespace LogsTesting

/-- Whether `encoding/json` can encode the entry: every metadata value must be encodable. -/
def encodable (e : LogEntry) : Bool :=
  match e.Metadata with
  | none => true
  | some m => m.all (fun kv => decide (kv.2 ≠ MetaValue.unsupported))

/-- The call `json.NewEncoder(&buf).Encode(logs)`: one JSON array holding the
object of each entry, in order; `none` is an encoding error. -/
def encodeBatch (logs : List LogEntry) : Option (List (List (String × JsonValue))) :=
  if logs.all encodable then some (logs.map LogEntry.jsonFields) else none

/-- What the network gives back for one HTTP request. -/
inductive Answer
  /-- no response (connection failure, the 10 s timeout, ...) -/
  | networkError
  /-- a response: status code, body, and whether it carries a `Location` header -/
  | response (status : Nat) (body : String) (location : Bool)
deriving DecidableEq, Repr

/-- What `client.Do(req)` gives back to its caller. -/
inductive Reply
  /-- a non-nil error -/
  | networkError
  /-- a response with its status code and body -/
  | response (status : Nat) (body : String)
deriving DecidableEq, Repr

/-- The outside of the sink adapter. -/
structure Sink where
  /-- whether `http.NewRequest` accepts the destination URL -/
  urlValid : Bool
  /-- what the network answers to the `k`-th request made by one call of
  `client.Do` for the given JSON array, the first request being `k = 0` -/
  answer : List (List (String × JsonValue)) → Nat → Answer

/-- Outcome of one call of `client.Do`. -/
structure DoResult where
  /-- what the caller gets -/
  reply : Reply
  /-- how many POST requests carrying the batch reached the network -/
  posts : Nat
deriving DecidableEq, Repr

/-- The redirect loop of `http.Client.Do` with the default policy (the client
is built without `CheckRedirect`): a 301, 302 or 303 with a `Location` is
followed by a GET without body, a 307 or 308 with a `Location` is followed with
method and body kept (`http.NewRequest` sets `GetBody` for a `bytes.Buffer`);
once ten requests have been made a further redirect is an error. `fuel` is the
number of requests still allowed, `k` the index of the next request, `isPost`
whether it is still the POST with the batch. -/
def follow (answer : Nat → Answer) : Nat → Nat → Bool → Nat → DoResult
  | 0, _, _, posts => { reply := Reply.networkError, posts := posts }
  | fuel + 1, k, isPost, posts =>
    match answer k with
    | Answer.networkError =>
      { reply := Reply.networkError, posts := if isPost then posts + 1 else posts }
    | Answer.response status body location =>
      if location ∧ (status = 301 ∨ status = 302 ∨ status = 303) then
        follow answer fuel (k + 1) false (if isPost then posts + 1 else posts)
      else if location ∧ (status = 307 ∨ status = 308) then
        follow answer fuel (k + 1) isPost (if isPost then posts + 1 else posts)
      else
        { reply := Reply.response status body, posts := if isPost then posts + 1 else posts }

/-- The call `client.Do(req)` for the POST built by the adapter. -/
def clientDo (answer : Nat → Answer) : DoResult :=
  follow answer 10 0 true 0

/-- A line printed by the sink adapter. -/
inductive Line
  /-- line `Error encoding log entries: ...` -/
  | errorEncoding
  /-- line `Error creating request: ...` -/
  | errorCreatingRequest
  /-- line `Error sending logs: ...` -/
  | errorSending
  /-- line `Error from API. Status: <status>` -/
  | errorFromAPI (status : Nat)
  /-- line `Response: <body>` -/
  | responseBody (body : String)
  /-- line `Successfully sent <n> logs` -/
  | successfullySent (n : Nat)
deriving DecidableEq, Repr

/-- What one call of the sink adapter did: the lines it printed, in order, how
many times it called `client.Do`, and how many POST requests with the batch
reached the network. -/
structure Delivery where
  printed : List Line
  doCalls : Nat
  posts : Nat
deriving DecidableEq, Repr

/-- Function `bulkIndexLogs` of `src/opensearch_helpers.go`. -/
def bulkIndexLogs (sink : Sink) (logs : List LogEntry) : Delivery :=
  match encodeBatch logs with
  | none => { printed := [Line.errorEncoding], doCalls := 0, posts := 0 }
  | some buf =>
    if !sink.urlValid then { printed := [Line.errorCreatingRequest], doCalls := 0, posts := 0 }
    else
      match clientDo (sink.answer buf) with
      | { reply := Reply.networkError, posts := n } =>
        { printed := [Line.errorSending], doCalls := 1, posts := n }
      | { reply := Reply.response status body, posts := n } =>
        if status ≥ 400 then
          { printed := [Line.errorFromAPI status, Line.responseBody body], doCalls := 1,
            posts := n }
        else { printed := [], doCalls := 1, posts := n }

/-- Function `sendLogs` of `src/cmd/test-logs/main.go`. -/
def sendLogs (sink : Sink) (logs : List LogEntry) : Delivery :=
  match encodeBatch logs with
  | none => { printed := [Line.errorEncoding], doCalls := 0, posts := 0 }
  | some buf =>
    if !sink.urlValid then { printed := [Line.errorCreatingRequest], doCalls := 0, posts := 0 }
    else
      match clientDo (sink.answer buf) with
      | { reply := Reply.networkError, posts := n } =>
        { printed := [Line.errorSending], doCalls := 1, posts := n }
      | { reply := Reply.response status body, posts := n } =>
        if status ≥ 400 then
          { printed := [Line.errorFromAPI status, Line.responseBody body], doCalls := 1,
            posts := n }
        else { printed := [Line.successfullySent logs.length], doCalls := 1, posts := n }

/-- A line that reports an error. -/
def Line.isError : Line → Bool
  | Line.errorEncoding => true
  | Line.errorCreatingRequest => true
  | Line.errorSending => true
  | Line.errorFromAPI _ => true
  | Line.responseBody _ => false
  | Line.successfullySent _ => false

/-- The delivery is treated as failed: an error is reported. -/
def Delivery.failed (d : Delivery) : Bool :=
  d.printed.any Line.isError

/-- The success class of HTTP status codes, 2xx. -/
def isSuccessCode (status : Nat) : Bool :=
  decide (200 ≤ status ∧ status < 300)

end LogsTesting

namespace LogsTesting

/-- A sink that answers every request with `304 Not Modified`. -/
def notModifiedSink : Sink :=
  { urlValid := true, answer := fun _ _ => Answer.response 304 "" false }

/-- A sink that answers the first request with `307 Temporary Redirect` and a
`Location`, and the next one with `200 OK`. -/
def redirectOnceSink : Sink :=
  { urlValid := true
    answer := fun _ k =>
      if k = 0 then Answer.response 307 "" true else Answer.response 200 "" false }

end LogsTesting

/-! ## Inputs for the API message check -/

namespace LogsTesting

/-- The text of `fmt.Sprintf("HTTP %s %s completed in %dms with status %d", ...)`
for the given four arguments. -/
def apiMessage (method path : String) (duration statusCode : Int) : String :=
  "HTTP " ++ method ++ " " ++ path ++ " completed in " ++ toString duration ++
    "ms with status " ++ toString statusCode

/-- A world whose raw draws are the given list, then 0; the clock is fixed. -/
def World.ofDraws (draws : List Nat) : World :=
  { rand := fun k => draws.getD k 0
    usage := fun _ => { bits := 0 }
    clock := fun _ =>
      { year := 2024, month := 1, day := 2, hour := 3, minute := 4, second := 5, offset := 0 }
    fmtFloat := fun _ => "0.00"
    rpos := 0, fpos := 0, tpos := 0 }

/-- Raw draws of one API entry, in call order: status code, duration, level,
service, method for the message, path for the message, method, path,
environment. The two method draws differ, and so do the two path draws. -/
def mismatchDraws : List Nat := [0, 42, 0, 0, 0, 0, 1, 1, 0]

end LogsTesting

namespace LogsTesting

/-- The optional fields relevant to each category, one table for both
programs: the category-specific fields of the data model, as the generators
of `src/log_generators.go` fill them. -/
def relevantKeys : Category → List String
  | Category.api => ["status_code", "method", "path", "duration"]
  | Category.database => ["duration", "action", "metadata"]
  | Category.userActivity => ["user_id", "action"]
  | Category.systemMetrics => ["metadata"]

end LogsTesting

namespace LogsTesting

/-- The fields about which the amended field-presence statement says nothing:
`method`, `path` and `action` of the database events of the command-line tool,
and `metadata` of its user-activity events, which that program fills
differently from the web server. -/
def leftOpen (cli : Bool) (c : Category) (k : String) : Bool :=
  cli && ((c = Category.database && (k = "method" || k = "path" || k = "action")) ||
    (c = Category.userActivity && k = "metadata"))

end LogsTesting

/-! # Theorems -/

namespace LogsTesting

/-! ## Lifecycle -/

theorem chanInv_init : ChanInv Sys.init :=
  ⟨by simp [Sys.init], by simp [Sys.init], by simp [Sys.init]⟩

theorem chanInv_of_same {s t : Sys} (h : ChanInv s) (hc : t.closed = s.closed)
    (hn : t.nextChan = s.nextChan) (hs : t.stopChan = s.stopChan)
    (hr : t.isRunning = true → s.isRunning = true) : ChanInv t := by
  refine ⟨?_, ?_, ?_⟩
  · rw [hc, hn]; exact h.closed_lt
  · rw [hs, hn]; exact h.cur_lt
  · intro ht; rw [hs, hc]; exact h.cur_open (hr ht)

theorem handleStart_chanInv (m : String) (s : Sys) (h : ChanInv s) :
    ChanInv (handleStart m s).2 := by
  unfold handleStart
  split_ifs with h1 h2
  · exact h
  · exact h
  · refine ⟨?_, ?_, ?_⟩
    · intro c hc; exact Nat.lt_succ_of_lt (h.closed_lt c hc)
    · exact Nat.lt_succ_self _
    · intro _ hmem; exact absurd (h.closed_lt _ hmem) (Nat.lt_irrefl _)

theorem handleStop_chanInv (m : String) (s : Sys) (h : ChanInv s) :
    ∃ r t, handleStop m s = some (r, t) ∧ ChanInv t := by
  unfold handleStop
  split_ifs with h1 h2 h3
  · exact ⟨_, s, rfl, h⟩
  · exact ⟨_, s, rfl, h⟩
  · simp at h2; exact absurd h3 (h.cur_open h2)
  · refine ⟨_, _, rfl, ?_, ?_, ?_⟩
    · intro c hc
      rcases List.mem_cons.mp hc with rfl | hc
      · exact h.cur_lt
      · exact h.closed_lt c hc
    · exact h.cur_lt
    · intro hr; simp at hr

theorem step_chanInv (s : Sys) (a : Action) (h : ChanInv s) :
    ∃ t, step s a = some t ∧ ChanInv t := by
  cases a with
  | start m => exact ⟨_, rfl, handleStart_chanInv m s h⟩
  | stop m =>
    obtain ⟨r, t, ht, hinv⟩ := handleStop_chanInv m s h
    exact ⟨t, by simp [step, ht], hinv⟩
  | timer g =>
    refine ⟨_, rfl, ?_⟩
    unfold timerStep
    split
    · split_ifs
      · exact h
      · exact chanInv_of_same h rfl rfl rfl id
    · exact h
  | arrive g =>
    refine ⟨_, rfl, ?_⟩
    unfold arriveStep
    split
    · split_ifs
      · exact chanInv_of_same h rfl rfl rfl id
      · exact h
    · exact h
  | choose g pick =>
    refine ⟨_, rfl, ?_⟩
    unfold chooseStep
    split
    · split
      · split
        · exact chanInv_of_same h rfl rfl rfl id
        · exact chanInv_of_same h rfl rfl rfl id
        · exact h
      · exact h
    · exact h
  | finish g =>
    refine ⟨_, rfl, ?_⟩
    unfold finishStep
    split
    · split_ifs
      · exact chanInv_of_same h rfl rfl rfl id
      · exact h
    · exact h
  | supervise r =>
    refine ⟨_, rfl, ?_⟩
    unfold superviseStep
    split_ifs
    · exact chanInv_of_same h rfl rfl rfl (by intro hr; simp at hr)
    · exact h

/-- No schedule panics, and every reachable state obeys the channel discipline. -/
theorem exec_chanInv (tr : List Action) :
    ∀ s, ChanInv s → ∃ t, exec tr s = some t ∧ ChanInv t := by
  induction tr with
  | nil => intro s h; exact ⟨s, rfl, h⟩
  | cons a as ih =>
    intro s h
    obtain ⟨t, ht, hinv⟩ := step_chanInv s a h
    obtain ⟨u, hu, hinv2⟩ := ih t hinv
    exact ⟨u, by simp [exec, ht, hu], hinv2⟩

/-- The guard of `handleStart`: with `isRunning` set a POST is answered 409 and
changes nothing; otherwise it is answered 200, sets `isRunning`, stores a
channel never used before in `stopChan` and launches four generators; a POST
that follows at once is answered 409. -/
theorem handleStart_post (s : Sys) :
    (s.isRunning = true → handleStart "POST" s = (Resp.conflict409, s)) ∧
    (s.isRunning = false →
      (handleStart "POST" s).1 = Resp.ok200 ∧ (handleStart "POST" s).2.isRunning = true ∧
      (handleStart "POST" s).2.stopChan = s.nextChan ∧
      (handleStart "POST" s).2.gens = s.gens ++ spawn s.nextRun ∧
      (spawn s.nextRun).length = 4 ∧
      (ChanInv s → (handleStart "POST" s).2.stopChan ∉ (handleStart "POST" s).2.closed)) ∧
    handleStart "POST" (handleStart "POST" s).2
      = (Resp.conflict409, (handleStart "POST" s).2) := by
  refine ⟨?_, ?_, ?_⟩
  · intro h; simp [handleStart, h]
  · intro h
    refine ⟨by simp [handleStart, h], by simp [handleStart, h], by simp [handleStart, h],
      by simp [handleStart, h], rfl, ?_⟩
    intro hinv
    have := (handleStart_chanInv "POST" s hinv).cur_open (by simp [handleStart, h])
    exact this
  · cases h : s.isRunning <;> simp [handleStart, h]

/-- C1 (the code departs from the claim): the schedule `overlapSchedule` reaches
a state in which generators of run 0 and of run 1 are live together, eight in
all; channel 1, the one run 0 was started with, is closed, yet the four
generators of run 0 wait in `select` on channel 2, which is open. -/
theorem overlapping_runs_reachable :
    (exec overlapSchedule Sys.init).map (fun s => (liveRuns s, (live s).length))
      = some ([0, 1], 8) ∧
    (exec overlapSchedule Sys.init).map (fun s => (s.closed, s.stopChan, s.isRunning))
      = some ([1], 2, true) ∧
    (exec overlapSchedule Sys.init).map (fun s => (List.range 4).map (pcOf s))
      = some [some (PC.waiting 2), some (PC.waiting 2), some (PC.waiting 2),
          some (PC.waiting 2)] := by
  decide

/-- C2 (the code departs from the claim): after `staleWaiterBefore` a POST to
`handleStart` succeeds and creates run 1; `staleWaiterBetween` holds no Stop and
no drain of run 1 (its four generators stay live), only the drain of run 0; the
next POST to `handleStart` is answered 200, not 409, launches four more
generators (eight live) and replaces the cancellation channel. -/
theorem second_start_accepted_after_stale_waiter :
    Action.stop "POST" ∉ staleWaiterBetween ∧ Action.supervise 1 ∉ staleWaiterBetween ∧
    ((exec staleWaiterBefore Sys.init).map fun s0 => (handleStart "POST" s0).1)
      = some Resp.ok200 ∧
    ((exec staleWaiterBefore Sys.init).bind fun s0 =>
      (exec staleWaiterBetween (handleStart "POST" s0).2).map fun s2 =>
        (s2.isRunning, liveRuns s2, wgCount s2 1, s2.stopChan))
      = some (false, [1], 4, 2) ∧
    ((exec staleWaiterBefore Sys.init).bind fun s0 =>
      (exec staleWaiterBetween (handleStart "POST" s0).2).map fun s2 =>
        ((handleStart "POST" s2).1, (live (handleStart "POST" s2).2).length,
          (handleStart "POST" s2).2.stopChan))
      = some (Resp.ok200, 8, 3) := by
  decide

/-- C3: in every reachable state (the state after any schedule, none of which
panics) a POST to `handleStop` returns; it answers 400 exactly when `isRunning`
is false, and then the state, the flag and the channel included, is unchanged
and nothing is closed; when `isRunning` is true it answers 200, the current
channel, open before, is closed, `stopChan` still names it, and `isRunning` is
false. -/
theorem handleStop_post_reachable (tr : List Action) :
    ∃ s r t, exec tr Sys.init = some s ∧ handleStop "POST" s = some (r, t) ∧
      (r = Resp.badRequest400 ↔ s.isRunning = false) ∧
      (s.isRunning = false → t = s) ∧
      (s.isRunning = true →
        r = Resp.ok200 ∧ s.stopChan ∉ s.closed ∧ t.closed = s.stopChan :: s.closed ∧
        t.stopChan = s.stopChan ∧ t.isRunning = false ∧ t.gens = s.gens) := by
  obtain ⟨s, hs, hinv⟩ := exec_chanInv tr Sys.init chanInv_init
  cases hrun : s.isRunning with
  | false =>
    refine ⟨s, Resp.badRequest400, s, hs, ?_, ?_, ?_, ?_⟩
    · simp [handleStop, hrun]
    · simp [hrun]
    · intro _; rfl
    · intro h; rw [hrun] at h; cases h
  | true =>
    have hopen : s.stopChan ∉ s.closed := hinv.cur_open hrun
    refine ⟨s, Resp.ok200, { s with closed := s.stopChan :: s.closed, isRunning := false },
      hs, ?_, ?_, ?_, ?_⟩
    · simp [handleStop, hrun, hopen]
    · simp [hrun]
    · intro h; rw [hrun] at h; cases h
    · intro _; exact ⟨rfl, hopen, rfl, rfl, rfl, rfl⟩

end LogsTesting

namespace LogsTesting

theorem pcOf_setGen_ne (s : Sys) (g h : Nat) (x : Goroutine) (hne : h ≠ g) :
    pcOf (setGen s h x) g = pcOf s g := by
  simp [pcOf, setGen, List.getElem?_set_ne hne]

theorem pcOf_exited_get {s : Sys} {g : Nat} (h : pcOf s g = some PC.exited) :
    ∃ x, s.gens[g]? = some x ∧ x.pc = PC.exited := by
  unfold pcOf at h
  cases hx : s.gens[g]? with
  | none => simp [hx] at h
  | some x => exact ⟨x, rfl, by simpa [hx] using h⟩

/-- A returned generator is not touched by any step: it stays returned and
neither begins nor publishes a tick. -/
theorem step_exited (s t : Sys) (a : Action) (g : Nat)
    (hg : pcOf s g = some PC.exited) (ht : step s a = some t) :
    pcOf t g = some PC.exited ∧ t.began.count g = s.began.count g ∧
      t.published.count g = s.published.count g := by
  obtain ⟨x, hx, hpc⟩ := pcOf_exited_get hg
  cases a with
  | start m =>
    simp only [step, Option.some.injEq] at ht
    subst ht
    unfold handleStart
    split_ifs
    · exact ⟨hg, rfl, rfl⟩
    · exact ⟨hg, rfl, rfl⟩
    · refine ⟨?_, rfl, rfl⟩
      have hlt : g < s.gens.length := by
        by_contra hge
        rw [List.getElem?_eq_none (Nat.le_of_not_lt hge)] at hx
        cases hx
      simp [pcOf, List.getElem?_append_left hlt, hx, hpc]
  | stop m =>
    simp only [step] at ht
    unfold handleStop at ht
    split_ifs at ht
    · simp at ht; subst ht; exact ⟨hg, rfl, rfl⟩
    · simp at ht; subst ht; exact ⟨hg, rfl, rfl⟩
    · simp at ht
    · simp at ht; subst ht; exact ⟨hg, rfl, rfl⟩
  | timer h =>
    simp only [step, Option.some.injEq] at ht
    subst ht
    by_cases hh : h = g
    · subst hh; simp [timerStep, hx, hpc, hg]
    · unfold timerStep
      split
      · split_ifs
        · exact ⟨hg, rfl, rfl⟩
        · exact ⟨by rw [pcOf_setGen_ne _ _ _ _ hh]; exact hg, rfl, rfl⟩
      · exact ⟨hg, rfl, rfl⟩
  | arrive h =>
    simp only [step, Option.some.injEq] at ht
    subst ht
    by_cases hh : h = g
    · subst hh; simp [arriveStep, hx, hpc, hg]
    · unfold arriveStep
      split
      · split_ifs
        · exact ⟨by rw [pcOf_setGen_ne _ _ _ _ hh]; exact hg, rfl, rfl⟩
        · exact ⟨hg, rfl, rfl⟩
      · exact ⟨hg, rfl, rfl⟩
  | choose h pick =>
    simp only [step, Option.some.injEq] at ht
    subst ht
    by_cases hh : h = g
    · subst hh; simp [chooseStep, hx, hpc, hg]
    · unfold chooseStep
      split
      · split
        · split
          · refine ⟨?_, ?_, rfl⟩
            · show pcOf (setGen s h _) g = _
              rw [pcOf_setGen_ne _ _ _ _ hh]; exact hg
            · show (s.began ++ [h]).count g = _
              simp [List.count_cons, hh]
          · exact ⟨by rw [pcOf_setGen_ne _ _ _ _ hh]; exact hg, rfl, rfl⟩
          · exact ⟨hg, rfl, rfl⟩
        · exact ⟨hg, rfl, rfl⟩
      · exact ⟨hg, rfl, rfl⟩
  | finish h =>
    simp only [step, Option.some.injEq] at ht
    subst ht
    by_cases hh : h = g
    · subst hh; simp [finishStep, hx, hpc, hg]
    · unfold finishStep
      split
      · split_ifs
        · refine ⟨?_, rfl, ?_⟩
          · show pcOf (setGen s h _) g = _
            rw [pcOf_setGen_ne _ _ _ _ hh]; exact hg
          · show (s.published ++ [h]).count g = _
            simp [List.count_cons, hh]
        · exact ⟨hg, rfl, rfl⟩
      · exact ⟨hg, rfl, rfl⟩
  | supervise r =>
    simp only [step, Option.some.injEq] at ht
    subst ht
    unfold superviseStep
    split_ifs
    · exact ⟨hg, rfl, rfl⟩
    · exact ⟨hg, rfl, rfl⟩

theorem exec_exited (tr : List Action) (g : Nat) :
    ∀ s t, pcOf s g = some PC.exited → exec tr s = some t →
      pcOf t g = some PC.exited ∧ t.began.count g = s.began.count g ∧
        t.published.count g = s.published.count g := by
  induction tr with
  | nil =>
    intro s t hg ht
    simp only [exec, Option.some.injEq] at ht
    subst ht
    exact ⟨hg, rfl, rfl⟩
  | cons a as ih =>
    intro s t hg ht
    simp only [exec] at ht
    cases hstep : step s a with
    | none => simp [hstep] at ht
    | some u =>
      rw [hstep] at ht
      obtain ⟨h1, h2, h3⟩ := step_exited s u a g hg hstep
      obtain ⟨k1, k2, k3⟩ := ih u t h1 ht
      exact ⟨k1, k2.trans h2, k3.trans h3⟩

/-- C4 (as stated, refuted): after `stopDuringTick` the channel of generator 0,
channel 1, is closed and exactly one tick of generator 0 has begun (the one in
flight when Stop fired); the generator is in `select` on that closed channel
with a tick pending. `select` may proceed with the ticker case: the generator
is then in the tick body again, a second tick has begun, and once it finishes
its events are published. -/
theorem tick_begun_after_cancellation :
    (exec stopDuringTick Sys.init).map
        (fun s => (s.closed, s.gens[0]?, s.began, s.published))
      = some ([1], some { run := 0, kind := 0, pc := PC.waiting 1, tick := true }, [0], [0]) ∧
    (exec (stopDuringTick ++ [Action.choose 0 true]) Sys.init).map
        (fun s => (pcOf s 0, s.began))
      = some (some PC.inTick, [0, 0]) ∧
    (exec (stopDuringTick ++ [Action.choose 0 true, Action.finish 0]) Sys.init).map
        (fun s => s.published)
      = some [0, 0] := by
  decide

/-- C4 (amended): a generator inside `select` on a closed channel returns at
that arrival when no tick is pending; when a tick is pending too, the case is
the one `select` picks, so it returns or begins one more tick; a generator that
has returned stays returned under every schedule and neither begins nor
publishes a tick afterwards. -/
theorem generator_cancellation (s : Sys) (g : Nat) (x : Goroutine) (ch : Nat) (pick : Bool)
    (hx : s.gens[g]? = some x) (hpc : x.pc = PC.waiting ch) (hch : ch ∈ s.closed) :
    (x.tick = false →
      pcOf (chooseStep s g pick) g = some PC.exited ∧
      (chooseStep s g pick).began = s.began ∧
      (chooseStep s g pick).published = s.published) ∧
    (x.tick = true →
      pcOf (chooseStep s g pick) g = some (if pick then PC.inTick else PC.exited)) ∧
    (∀ tr t, exec tr (chooseStep s g false) = some t →
      pcOf t g = some PC.exited ∧ t.began.count g = s.began.count g ∧
        t.published.count g = s.published.count g) := by
  have hlt : g < s.gens.length := by
    by_contra hge
    rw [List.getElem?_eq_none (Nat.le_of_not_lt hge)] at hx
    cases hx
  have hstop : chooseStep s g false = setGen s g { x with pc := PC.exited } := by
    cases htk : x.tick <;> simp [chooseStep, hx, hpc, hch, selectCase, htk]
  have hex : pcOf (setGen s g { x with pc := PC.exited }) g = some PC.exited := by
    simp [pcOf, setGen, List.getElem?_set_self hlt]
  refine ⟨?_, ?_, ?_⟩
  · intro htk
    have : chooseStep s g pick = setGen s g { x with pc := PC.exited } := by
      simp [chooseStep, hx, hpc, hch, selectCase, htk]
    rw [this]
    exact ⟨hex, rfl, rfl⟩
  · intro htk
    cases pick
    · rw [hstop]; simpa using hex
    · simp [chooseStep, hx, hpc, hch, selectCase, htk, pcOf, setGen, List.getElem?_set_self hlt]
  · intro tr t ht
    rw [hstop] at ht
    exact exec_exited tr g (setGen s g { x with pc := PC.exited }) t hex ht

/-- The amended C4 statement at the state reached by `Start`, arrival of
generator 0 in `select`, `Stop`. -/
theorem generator_cancellation_witness :
    pcOf (chooseStep
      { Sys.init with
        isRunning := false, stopChan := 1, closed := [1], nextChan := 2, nextRun := 1,
        gens := [{ run := 0, kind := 0, pc := PC.waiting 1, tick := false }] } 0 true) 0
      = some PC.exited :=
  ((generator_cancellation
    { Sys.init with
      isRunning := false, stopChan := 1, closed := [1], nextChan := 2, nextRun := 1,
      gens := [{ run := 0, kind := 0, pc := PC.waiting 1, tick := false }] }
    0 { run := 0, kind := 0, pc := PC.waiting 1, tick := false } 1 true
    (by decide) (by decide) (by decide)).1 (by decide)).1

end LogsTesting

/-! ## Broadcast hub -/

namespace LogsTesting

/-- Closed form of the `range` loop of `broadcastLog` over the keys `l`. -/
theorem broadcast_fold (ok : Nat → Bool) (log : LogEntry) (l : List Nat) :
    ∀ acc : Hub,
      (l.foldl (broadcastOne ok log) acc).clients
          = acc.clients.diff (l.filter (fun c => !ok c)) ∧
      (l.foldl (broadcastOne ok log) acc).closed
          = acc.closed ++ l.filter (fun c => !ok c) ∧
      (l.foldl (broadcastOne ok log) acc).wire
          = acc.wire ++ l.map (fun c => (c, log, ok c)) := by
  induction l with
  | nil => intro acc; simp
  | cons a l ih =>
    intro acc
    obtain ⟨h1, h2, h3⟩ := ih (broadcastOne ok log acc a)
    simp only [List.foldl_cons]
    rw [h1, h2, h3]
    cases hok : ok a <;> simp [broadcastOne, hok, List.diff_cons]

theorem filter_not_mem_failed (ok : Nat → Bool) (l : List Nat) :
    l.filter (fun c => decide (c ∉ l.filter (fun c => !ok c))) = l.filter ok := by
  apply List.filter_congr
  intro c hc
  cases hok : ok c <;> simp [hc, hok]

theorem broadcastLog_clients (ok : Nat → Bool) (log : LogEntry) (h : Hub)
    (hnd : h.clients.Nodup) : (broadcastLog ok log h).clients = h.clients.filter ok := by
  unfold broadcastLog
  rw [(broadcast_fold ok log h.clients h).1, hnd.diff_eq_filter]
  exact filter_not_mem_failed ok h.clients

theorem attempted_broadcastLog (ok : Nat → Bool) (log : LogEntry) (h : Hub) :
    attempted h (broadcastLog ok log h) = h.clients := by
  unfold attempted broadcastLog
  rw [(broadcast_fold ok log h.clients h).2.2]
  simp [Function.comp_def]

/-- C5: one call of `broadcastLog` on a registry (the key set of a map, so
without repetition) attempts one send to every prior subscriber; afterwards the
registry is exactly the prior subscribers whose send succeeded, in the same
order; the subscribers whose send failed, and only they, are closed in this
call; and the next call of `broadcastLog` attempts a send to the survivors
only. -/
theorem broadcastLog_removes_failed (h : Hub) (ok ok2 : Nat → Bool) (log log2 : LogEntry)
    (hnd : h.clients.Nodup) :
    (broadcastLog ok log h).clients = h.clients.filter ok ∧
    (∀ c, c ∈ (broadcastLog ok log h).clients ↔ c ∈ h.clients ∧ ok c = true) ∧
    (broadcastLog ok log h).closed = h.closed ++ h.clients.filter (fun c => !ok c) ∧
    attempted h (broadcastLog ok log h) = h.clients ∧
    attempted (broadcastLog ok log h) (broadcastLog ok2 log2 (broadcastLog ok log h))
      = h.clients.filter ok ∧
    (∀ c, c ∈ h.clients → ok c = false →
      c ∉ attempted (broadcastLog ok log h)
        (broadcastLog ok2 log2 (broadcastLog ok log h))) := by
  have hc := broadcastLog_clients ok log h hnd
  have ha : attempted (broadcastLog ok log h) (broadcastLog ok2 log2 (broadcastLog ok log h))
      = h.clients.filter ok := by
    rw [attempted_broadcastLog, hc]
  refine ⟨hc, ?_, ?_, attempted_broadcastLog ok log h, ha, ?_⟩
  · intro c; rw [hc]; simp [List.mem_filter]
  · exact (broadcast_fold ok log h.clients h).2.1
  · intro c _ hok
    rw [ha]
    simp [List.mem_filter, hok]

/-- The C5 statement at a registry of three subscribers of which the second fails. -/
theorem broadcastLog_removes_failed_witness :
    (broadcastLog (fun c => decide (c ≠ 2)) LogEntry.zero
      { clients := [1, 2, 3], closed := [], wire := [] }).clients
      = [1, 2, 3].filter (fun c => decide (c ≠ 2)) :=
  (broadcastLog_removes_failed { clients := [1, 2, 3], closed := [], wire := [] }
    (fun c => decide (c ≠ 2)) (fun _ => true) LogEntry.zero LogEntry.zero (by decide)).1

theorem broadcastLog_all_ok (e : LogEntry) (h : Hub) :
    broadcastLog (fun _ => true) e h
      = { h with wire := h.wire ++ h.clients.map (fun c => (c, e, true)) } := by
  obtain ⟨h1, h2, h3⟩ := broadcast_fold (fun _ => true) e h.clients h
  unfold broadcastLog
  cases hh : List.foldl (broadcastOne (fun _ => true) e) h h.clients with
  | mk cl cs w =>
    rw [hh] at h1 h2 h3
    simp at h1 h2 h3
    simp [h1, h2, h3]

theorem observed_fanout (e : LogEntry) (conn : Nat) (l : List Nat) (hnd : l.Nodup) :
    (l.map (fun c => (c, e, true))).filterMap
        (fun w : Nat × LogEntry × Bool => if w.1 = conn ∧ w.2.2 = true then some w.2.1 else none)
      = if conn ∈ l then [e] else [] := by
  induction l with
  | nil => simp
  | cons a l ih =>
    rw [List.nodup_cons] at hnd
    rw [List.map_cons, List.filterMap_cons, ih hnd.2]
    by_cases ha : a = conn
    · subst ha; simp [hnd.1]
    · have : ¬ conn = a := fun h => ha h.symm
      simp [ha, this]

theorem applyOp_nodup (h : Hub) (op : HubOp) (hnd : h.clients.Nodup) :
    (applyOp h op).clients.Nodup := by
  cases op with
  | register c =>
    simp only [applyOp, register]
    split_ifs with hc
    · exact hnd
    · exact List.Nodup.append hnd (List.nodup_singleton c) (by simpa using hc)
  | unregister c => exact hnd.erase c
  | publish e => simp only [applyOp, broadcastLog_all_ok]; exact hnd

theorem applyOp_mem (h : Hub) (op : HubOp) (conn : Nat) (hnd : h.clients.Nodup) :
    decide (conn ∈ (applyOp h op).clients) =
      match op with
      | HubOp.register c => (decide (conn ∈ h.clients) || decide (c = conn))
      | HubOp.unregister c => (decide (conn ∈ h.clients) && !decide (c = conn))
      | HubOp.publish _ => decide (conn ∈ h.clients) := by
  cases op with
  | register c =>
    simp only [applyOp, register]
    split_ifs with hc
    · by_cases hcc : c = conn
      · subst hcc; simp [hc]
      · simp [hcc]
    · by_cases hcc : c = conn
      · subst hcc; simp
      · have : ¬ conn = c := fun h => hcc h.symm
        simp [hcc, this]
  | unregister c =>
    simp only [applyOp, unregister]
    by_cases hcc : c = conn
    · subst hcc; simp [hnd.mem_erase_iff]
    · have : ¬ conn = c := fun h => hcc h.symm
      simp [hcc, hnd.mem_erase_iff, this]
  | publish e => simp only [applyOp, broadcastLog_all_ok]

theorem applyOp_observed (h : Hub) (op : HubOp) (conn : Nat) (hnd : h.clients.Nodup) :
    observed (applyOp h op) conn =
      match op with
      | HubOp.publish e => observed h conn ++ (if conn ∈ h.clients then [e] else [])
      | _ => observed h conn := by
  cases op with
  | register c =>
    simp only [applyOp, register]
    split_ifs <;> rfl
  | unregister c => rfl
  | publish e =>
    simp only [applyOp, broadcastLog_all_ok, observed, List.filterMap_append]
    rw [observed_fanout e conn h.clients hnd]

/-- The hub refines the specification: what a subscriber has received after a
run without send failures is what it had, followed by the events published
while it was registered. -/
theorem observed_runOps (conn : Nat) (ops : List HubOp) :
    ∀ h : Hub, h.clients.Nodup →
      observed (runOps ops h) conn
        = observed h conn ++ publishedWhileRegistered conn (decide (conn ∈ h.clients)) ops := by
  induction ops with
  | nil => intro h _; simp [runOps, publishedWhileRegistered]
  | cons op ops ih =>
    intro h hnd
    have hstep := ih (applyOp h op) (applyOp_nodup h op hnd)
    simp only [runOps, List.foldl_cons] at hstep ⊢
    rw [hstep, applyOp_mem h op conn hnd, applyOp_observed h op conn hnd]
    cases op with
    | register c => simp [publishedWhileRegistered]
    | unregister c => simp [publishedWhileRegistered]
    | publish e =>
      by_cases hm : conn ∈ h.clients <;> simp [publishedWhileRegistered, hm]

theorem publishedWhileRegistered_publishes (conn : Nat) (es : List LogEntry) :
    publishedWhileRegistered conn true (es.map HubOp.publish) = es := by
  induction es with
  | nil => rfl
  | cons e es ih => simp [publishedWhileRegistered, ih]

end LogsTesting

namespace LogsTesting

/-- C6: in a run of register, unregister and `broadcastLog` operations without
send failures, started from a registry without repetition, subscriber `S`
receives, after what it already had, exactly the events published while it was
registered, each once and in publish order. In particular: an event published
right after `S` registers is received by `S`; an event published right after
`S` unregisters is not; and two subscribers registered before a series of
publications both receive exactly that series, in order. -/
theorem fanout_observed (h : Hub) (ops : List HubOp) (S S2 : Nat) (E : LogEntry)
    (es : List LogEntry) (hnd : h.clients.Nodup) :
    observed (runOps ops h) S
      = observed h S ++ publishedWhileRegistered S (decide (S ∈ h.clients)) ops ∧
    observed (broadcastLog (fun _ => true) E (register S h)) S = observed h S ++ [E] ∧
    observed (broadcastLog (fun _ => true) E (unregister S h)) S = observed h S ∧
    observed (runOps (es.map HubOp.publish) (register S2 (register S h))) S
      = observed h S ++ es ∧
    observed (runOps (es.map HubOp.publish) (register S2 (register S h))) S2
      = observed h S2 ++ es := by
  have hreg : ∀ c (k : Hub), k.clients.Nodup → (register c k).clients.Nodup :=
    fun c k hk => applyOp_nodup k (HubOp.register c) hk
  have hmem : ∀ c (k : Hub), c ∈ (register c k).clients := by
    intro c k
    unfold register
    split_ifs with hc
    · exact hc
    · simp
  have hmem2 : ∀ c d (k : Hub), c ∈ k.clients → c ∈ (register d k).clients := by
    intro c d k hck
    unfold register
    split_ifs
    · exact hck
    · simp [hck]
  have hobs : ∀ c d (k : Hub), observed (register d k) c = observed k c := by
    intro c d k
    unfold register
    split_ifs <;> rfl
  refine ⟨observed_runOps S ops h hnd, ?_, ?_, ?_, ?_⟩
  · have := applyOp_observed (register S h) (HubOp.publish E) S (hreg S h hnd)
    simp only [applyOp] at this
    rw [this, hobs, if_pos (hmem S h)]
  · have := applyOp_observed (unregister S h) (HubOp.publish E) S (hnd.erase S)
    simp only [applyOp] at this
    rw [this]
    have hnot : S ∉ (unregister S h).clients := by
      simp [unregister, hnd.mem_erase_iff]
    rw [if_neg hnot]
    simp [observed, unregister]
  · rw [observed_runOps S _ _ (hreg S2 _ (hreg S h hnd)), hobs, hobs,
      decide_eq_true (hmem2 S S2 _ (hmem S h)), publishedWhileRegistered_publishes]
  · rw [observed_runOps S2 _ _ (hreg S2 _ (hreg S h hnd)), hobs, hobs,
      decide_eq_true (hmem S2 _), publishedWhileRegistered_publishes]

/-- The C6 statement at a hub with one subscriber: a second one registers, an
event is published, the first one unregisters, another event is published. -/
theorem fanout_observed_witness :
    observed (runOps
        [HubOp.register 2, HubOp.publish LogEntry.zero, HubOp.unregister 1,
          HubOp.publish LogEntry.zero]
        { clients := [1], closed := [], wire := [] }) 1
      = observed { clients := [1], closed := [], wire := [] } 1 ++
        publishedWhileRegistered 1
          (decide (1 ∈ ({ clients := [1], closed := [], wire := [] } : Hub).clients))
          [HubOp.register 2, HubOp.publish LogEntry.zero, HubOp.unregister 1,
            HubOp.publish LogEntry.zero] :=
  (fanout_observed { clients := [1], closed := [], wire := [] }
    [HubOp.register 2, HubOp.publish LogEntry.zero, HubOp.unregister 1,
      HubOp.publish LogEntry.zero]
    1 2 LogEntry.zero [] (by decide)).1

end LogsTesting

/-! ## Generators -/

namespace LogsTesting

theorem ensures_pure {α : Type} {P : α → Prop} (a : α) (h : P a) :
    (pure a : Gen α).ensures P :=
  fun w => ⟨a, w, rfl, h⟩

theorem ensures_bind {α β : Type} {g : Gen α} {f : α → Gen β} {P : α → Prop} {Q : β → Prop}
    (hg : g.ensures P) (hf : ∀ a, P a → (f a).ensures Q) : (g >>= f).ensures Q := by
  intro w
  obtain ⟨a, w1, h1, hP⟩ := hg w
  obtain ⟨b, w2, h2, hQ⟩ := hf a hP w1
  refine ⟨b, w2, ?_, hQ⟩
  show Gen.bind g f w = some (b, w2)
  simp [Gen.bind, h1, h2]

theorem ensures_intn (n : Nat) (hn : n ≠ 0) : (intn n).ensures (fun k => k < n) := by
  intro w
  exact ⟨w.rand w.rpos % n, { w with rpos := w.rpos + 1 }, by simp [intn, hn],
    Nat.mod_lt _ (Nat.pos_of_ne_zero hn)⟩

theorem ensures_index {α : Type} (xs : List α) (i : Nat) (hi : i < xs.length) :
    (index xs i).ensures (fun x => x ∈ xs) := by
  intro w
  refine ⟨xs[i], w, ?_, List.getElem_mem _⟩
  simp [index, List.getElem?_eq_getElem hi]

/-- A string with a non-empty literal inside is not empty. -/
theorem append_ne_empty (a b c : String) (hb : 0 < b.length) : a ++ b ++ c ≠ "" := by
  intro h
  have hl := congrArg String.length h
  simp only [String.length_append] at hl
  have : "".length = 0 := rfl
  omega

theorem formatRFC3339_ne_empty (t : Time) : formatRFC3339 t ≠ "" := by
  unfold formatRFC3339
  simp only [String.append_assoc]
  rw [← String.append_assoc]
  exact append_ne_empty _ "-" _ (by decide)

theorem ensures_now : nowRFC3339.ensures (fun s => s ≠ "") := by
  intro w
  exact ⟨_, _, rfl, formatRFC3339_ne_empty _⟩

theorem ensures_float : float64x100.ensures (fun _ => True) :=
  fun _ => ⟨_, _, rfl, trivial⟩

theorem ensures_fmt2f (x : F64) : (fmt2f x).ensures (fun _ => True) :=
  fun _ => ⟨_, _, rfl, trivial⟩

end LogsTesting

namespace LogsTesting

/-- The idiom `xs[rand.Intn(n)]` with `n` at most the length of `xs`: it never
panics and yields an element of `xs`. -/
theorem ensures_draw {α β : Type} {xs : List α} {n : Nat} {f : α → Gen β} {Q : β → Prop}
    (hn : n ≠ 0) (hle : n ≤ xs.length) (hf : ∀ x, x ∈ xs → (f x).ensures Q) :
    (intn n >>= fun k => index xs k >>= f).ensures Q :=
  ensures_bind (ensures_intn n hn) fun k hk =>
    ensures_bind (ensures_index xs k (Nat.lt_of_lt_of_le hk hle)) hf

theorem info_mem_logLevels : "INFO" ∈ logLevels := by decide

theorem statusCodes_ne_zero : ∀ x ∈ statusCodes, x ≠ 0 := by decide

theorem httpMethods_ne_empty : ∀ x ∈ httpMethods, x ≠ "" := by decide

theorem apiPaths_ne_empty : ∀ x ∈ apiPaths, x ≠ "" := by decide

theorem userActions_ne_empty : ∀ x ∈ userActions, x ≠ "" := by decide

theorem dbOperations_ne_empty : ∀ x ∈ dbOperations, x ≠ "" := by decide

theorem userIDs_ne_empty : ∀ x ∈ userIDs, x ≠ "" := by decide

theorem cliTables_ne_empty :
    ∀ x ∈ ["users", "products", "orders", "payments", "inventory"], x ≠ "" := by decide

theorem userN_ne_empty (n : Nat) : "user_" ++ toString n ≠ "" := by
  intro h
  have hl := congrArg String.length h
  simp only [String.length_append] at hl
  have h1 : "user_".length = 5 := by decide
  have h2 : "".length = 0 := rfl
  omega

theorem web_apiEntry_facts : Web.apiEntry.ensures (EntryFacts false Category.api) := by
  unfold Web.apiEntry
  refine ensures_draw (by decide) (by decide) fun statusCode hsc => ?_
  refine ensures_bind (ensures_intn 1000 (by decide)) fun duration _ => ?_
  refine ensures_bind ensures_now fun timestamp hts => ?_
  refine ensures_draw (by decide) (by decide) fun level hlevel => ?_
  refine ensures_draw (by decide) (by decide) fun service _ => ?_
  refine ensures_draw (by decide) (by decide) fun msgMethod _ => ?_
  refine ensures_draw (by decide) (by decide) fun msgPath _ => ?_
  refine ensures_draw (by decide) (by decide) fun method hmethod => ?_
  refine ensures_draw (by decide) (by decide) fun path hpath => ?_
  refine ensures_draw (by decide) (by decide) fun environment henv => ?_
  refine ensures_pure _ ⟨hts, hlevel, henv, ?_, ?_, ?_, ?_, ?_, ?_, ?_⟩
  · simp [assignedKeys, statusCodes_ne_zero _ hsc]
  · simp [assignedKeys, httpMethods_ne_empty _ hmethod]
  · simp [assignedKeys, apiPaths_ne_empty _ hpath]
  all_goals simp [assignedKeys]

theorem web_databaseEntry_facts :
    Web.databaseEntry.ensures (EntryFacts false Category.database) := by
  unfold Web.databaseEntry
  refine ensures_draw (by decide) (by decide) fun operation hop => ?_
  refine ensures_bind (ensures_intn 500 (by decide)) fun duration _ => ?_
  refine ensures_bind ensures_now fun timestamp hts => ?_
  refine ensures_draw (by decide) (by decide) fun level hlevel => ?_
  refine ensures_draw (by decide) (by decide) fun service _ => ?_
  refine ensures_draw (by decide) (by decide) fun environment henv => ?_
  refine ensures_draw (by decide) (by decide) fun table _ => ?_
  refine ensures_pure _ ⟨hts, hlevel, henv, ?_, ?_, ?_, ?_, ?_, ?_, ?_⟩
  · simp [assignedKeys]
  · simp [assignedKeys]
  · simp [assignedKeys]
  · simp [assignedKeys]
  · simp [assignedKeys, dbOperations_ne_empty _ hop]
  all_goals simp [assignedKeys]

theorem web_userActivityEntry_facts :
    Web.userActivityEntry.ensures (EntryFacts false Category.userActivity) := by
  unfold Web.userActivityEntry
  refine ensures_bind (ensures_intn 1000 (by decide)) fun n _ => ?_
  refine ensures_draw (by decide) (by decide) fun action haction => ?_
  refine ensures_bind ensures_now fun timestamp hts => ?_
  refine ensures_draw (by decide) (by decide) fun service _ => ?_
  refine ensures_draw (by decide) (by decide) fun environment henv => ?_
  refine ensures_pure _ ⟨hts, info_mem_logLevels, henv, ?_, ?_, ?_, ?_, ?_, ?_, ?_⟩
  · simp [assignedKeys]
  · simp [assignedKeys]
  · simp [assignedKeys]
  · simp only [assignedKeys]
    exact ⟨fun _ => by decide, fun _ => userN_ne_empty n⟩
  · simp [assignedKeys, userActions_ne_empty _ haction]
  all_goals simp [assignedKeys]

theorem web_systemMetricsEntry_facts :
    Web.systemMetricsEntry.ensures (EntryFacts false Category.systemMetrics) := by
  unfold Web.systemMetricsEntry
  refine ensures_bind ensures_float fun cpuUsage _ => ?_
  refine ensures_bind ensures_float fun memoryUsage _ => ?_
  refine ensures_bind ensures_float fun diskUsage _ => ?_
  refine ensures_bind ensures_now fun timestamp hts => ?_
  refine ensures_draw (by decide) (by decide) fun level hlevel => ?_
  refine ensures_draw (by decide) (by decide) fun service _ => ?_
  refine ensures_bind (ensures_fmt2f _) fun cpuText _ => ?_
  refine ensures_bind (ensures_fmt2f _) fun memoryText _ => ?_
  refine ensures_bind (ensures_fmt2f _) fun diskText _ => ?_
  refine ensures_draw (by decide) (by decide) fun environment henv => ?_
  refine ensures_pure _ ⟨hts, hlevel, henv, ?_, ?_, ?_, ?_, ?_, ?_, ?_⟩
  all_goals simp [assignedKeys]

theorem cli_apiEntry_facts : Cli.apiEntry.ensures (EntryFacts true Category.api) := by
  unfold Cli.apiEntry
  refine ensures_draw (by decide) (by decide) fun statusCode hsc => ?_
  refine ensures_bind (ensures_intn 1000 (by decide)) fun duration _ => ?_
  refine ensures_bind ensures_now fun timestamp hts => ?_
  refine ensures_draw (by decide) (by decide) fun level hlevel => ?_
  refine ensures_draw (by decide) (by decide) fun service _ => ?_
  refine ensures_draw (by decide) (by decide) fun msgMethod _ => ?_
  refine ensures_draw (by decide) (by decide) fun msgPath _ => ?_
  refine ensures_draw (by decide) (by decide) fun method hmethod => ?_
  refine ensures_draw (by decide) (by decide) fun path hpath => ?_
  refine ensures_draw (by decide) (by decide) fun environment henv => ?_
  refine ensures_pure _ ⟨hts, hlevel, henv, ?_, ?_, ?_, ?_, ?_, ?_, ?_⟩
  · simp [assignedKeys, statusCodes_ne_zero _ hsc]
  · simp [assignedKeys, httpMethods_ne_empty _ hmethod]
  · simp [assignedKeys, apiPaths_ne_empty _ hpath]
  all_goals simp [assignedKeys]

theorem cli_databaseEntry_facts :
    Cli.databaseEntry.ensures (EntryFacts true Category.database) := by
  unfold Cli.databaseEntry
  refine ensures_bind (ensures_intn 500 (by decide)) fun duration _ => ?_
  refine ensures_draw (by decide) (by decide) fun operation hop => ?_
  refine ensures_draw (by decide) (by decide) fun table htable => ?_
  refine ensures_bind ensures_now fun timestamp hts => ?_
  refine ensures_draw (by decide) (by decide) fun level hlevel => ?_
  refine ensures_draw (by decide) (by decide) fun service _ => ?_
  refine ensures_draw (by decide) (by decide) fun environment henv => ?_
  refine ensures_bind (ensures_intn 100 (by decide)) fun rows _ => ?_
  refine ensures_pure _ ⟨hts, hlevel, henv, ?_, ?_, ?_, ?_, ?_, ?_, ?_⟩
  · simp [assignedKeys]
  · simp [assignedKeys, dbOperations_ne_empty _ hop]
  · simp [assignedKeys, cliTables_ne_empty _ htable]
  all_goals simp [assignedKeys]

theorem cli_userActivityEntry_facts :
    Cli.userActivityEntry.ensures (EntryFacts true Category.userActivity) := by
  unfold Cli.userActivityEntry
  refine ensures_draw (by decide) (by decide) fun userID huser => ?_
  refine ensures_draw (by decide) (by decide) fun action haction => ?_
  refine ensures_bind ensures_now fun timestamp hts => ?_
  refine ensures_draw (by decide) (by decide) fun environment henv => ?_
  refine ensures_draw (by decide) (by decide) fun browser _ => ?_
  refine ensures_draw (by decide) (by decide) fun platform _ => ?_
  refine ensures_bind (ensures_intn 255 (by decide)) fun ip3 _ => ?_
  refine ensures_bind (ensures_intn 255 (by decide)) fun ip4 _ => ?_
  refine ensures_pure _ ⟨hts, info_mem_logLevels, henv, ?_, ?_, ?_, ?_, ?_, ?_, ?_⟩
  · simp [assignedKeys]
  · simp [assignedKeys]
  · simp [assignedKeys]
  · simp [assignedKeys, userIDs_ne_empty _ huser]
  · simp [assignedKeys, userActions_ne_empty _ haction]
  all_goals simp [assignedKeys]

theorem cli_systemMetricsEntry_facts :
    Cli.systemMetricsEntry.ensures (EntryFacts true Category.systemMetrics) := by
  unfold Cli.systemMetricsEntry
  refine ensures_bind ensures_float fun cpuUsage _ => ?_
  refine ensures_bind ensures_float fun memoryUsage _ => ?_
  refine ensures_bind ensures_float fun diskUsage _ => ?_
  refine ensures_bind ensures_now fun timestamp hts => ?_
  refine ensures_bind (ensures_fmt2f _) fun cpuText _ => ?_
  refine ensures_bind (ensures_fmt2f _) fun memoryText _ => ?_
  refine ensures_bind (ensures_fmt2f _) fun diskText _ => ?_
  refine ensures_draw (by decide) (by decide) fun environment henv => ?_
  refine ensures_bind (ensures_intn 10 (by decide)) fun host _ => ?_
  refine ensures_pure _ ⟨hts, info_mem_logLevels, henv, ?_, ?_, ?_, ?_, ?_, ?_, ?_⟩
  all_goals simp [assignedKeys]

/-- Every entry builder returns in every world, with every index in range, and
what it returns has the shape its struct literal gives it. -/
theorem entryOf_facts (cli : Bool) (c : Category) :
    (entryOf cli c).ensures (EntryFacts cli c) := by
  cases cli <;> cases c
  · exact web_apiEntry_facts
  · exact web_databaseEntry_facts
  · exact web_userActivityEntry_facts
  · exact web_systemMetricsEntry_facts
  · exact cli_apiEntry_facts
  · exact cli_databaseEntry_facts
  · exact cli_userActivityEntry_facts
  · exact cli_systemMetricsEntry_facts

end LogsTesting

namespace LogsTesting

/-- The fill loop, started at index `pre.length` on a slice whose remaining
part `rest` has one slot per iteration to go: it never panics, it overwrites
`rest` with the entries built, in order, and emits for each of them in that
order. -/
theorem fillLoop_spec {build : Gen LogEntry} {P : LogEntry → Prop} (hb : build.ensures P)
    (emit : LogEntry → List Call) :
    ∀ (remaining : Nat) (pre rest : List LogEntry) (calls : List Call) (w : World),
      rest.length = remaining →
      ∃ new w', new.length = remaining ∧ (∀ e ∈ new, P e) ∧
        fillLoop build emit remaining pre.length (pre ++ rest) calls w
          = some ((pre ++ new, calls ++ (new.map emit).flatten), w') := by
  intro remaining
  induction remaining with
  | zero =>
    intro pre rest calls w hlen
    have : rest = [] := List.length_eq_zero.mp hlen
    subst this
    exact ⟨[], w, rfl, by simp, by simp [fillLoop]⟩
  | succ r ih =>
    intro pre rest calls w hlen
    obtain ⟨e, w1, hbuild, hP⟩ := hb w
    cases rest with
    | nil => simp at hlen
    | cons z rest' =>
      have hlen' : rest'.length = r := by simpa using hlen
      have hset : (pre ++ z :: rest').set pre.length e = (pre ++ [e]) ++ rest' := by
        simp [List.set_append]
      have hget : ((pre ++ [e]) ++ rest')[pre.length]? = some e := by
        rw [List.append_assoc, List.getElem?_append_right (Nat.le_refl _)]
        simp
      obtain ⟨new, w2, hn, hall, hrun⟩ := ih (pre ++ [e]) rest' (calls ++ emit e) w1 hlen'
      refine ⟨e :: new, w2, by simp [hn], ?_, ?_⟩
      · intro x hx
        rcases List.mem_cons.mp hx with rfl | hx
        · exact hP
        · exact hall x hx
      · have hl : (pre ++ [e]).length = pre.length + 1 := by simp
        rw [hl] at hrun
        simp only [fillLoop, hbuild, hset, hget, hrun]
        simp

theorem flatten_singletons {α β : Type} (f : α → β) (l : List α) :
    (l.map (fun a => [f a])).flatten = l.map f := by
  induction l with
  | nil => rfl
  | cons a l ih => simp [ih]

theorem broadcasts_append (xs ys : List Call) :
    broadcasts (xs ++ ys) = broadcasts xs ++ broadcasts ys := by
  induction xs with
  | nil => rfl
  | cons x xs ih => cases x <;> simp [broadcasts, ih]

theorem shipped_append (xs ys : List Call) :
    shipped (xs ++ ys) = shipped xs ++ shipped ys := by
  induction xs with
  | nil => rfl
  | cons x xs ih => cases x <;> simp [shipped, ih]

theorem broadcasts_map (b : List LogEntry) : broadcasts (b.map Call.broadcastLog) = b := by
  induction b with
  | nil => rfl
  | cons e b ih => simp [broadcasts, ih]

theorem shipped_map (b : List LogEntry) : shipped (b.map Call.broadcastLog) = [] := by
  induction b with
  | nil => rfl
  | cons e b ih => simp [shipped, ih]

/-- One tick of a web-server generator: it returns, the batch has `r + 2`
entries for the draw `r < 4`, each entry has the shape of its category, and
the calls are the broadcasts of the entries, in order, followed by one call of
`bulkIndexLogs` on the whole batch. -/
theorem web_tick_spec (c : Category) (w : World) :
    ∃ batch w', Web.tick c w = some (batch.map Call.broadcastLog ++ [Call.bulkIndexLogs batch], w') ∧
      batch.length = w.rand w.rpos % 4 + 2 ∧ ∀ e ∈ batch, EntryFacts false c e := by
  have hb : (Web.entry c).ensures (EntryFacts false c) := entryOf_facts false c
  obtain ⟨new, w2, hn, hall, hrun⟩ :=
    fillLoop_spec hb (fun e => [Call.broadcastLog e]) (w.rand w.rpos % 4 + 2) []
      (List.replicate (w.rand w.rpos % 4 + 2) LogEntry.zero) []
      { w with rpos := w.rpos + 1 } (by simp)
  refine ⟨new, w2, ?_, hn, hall⟩
  simp only [List.length_nil, List.nil_append] at hrun
  rw [flatten_singletons] at hrun
  simp only [Web.tick, intn]
  simp [hrun]

/-- One tick of a command-line generator with a non-negative batch size: it
returns, the batch has that many entries, each of the shape of its category,
and the only call is `sendLogs` on the batch. -/
theorem cli_tick_spec (n : Nat) (c : Category) (w : World) :
    ∃ batch w', Cli.tick (n : Int) c w = some ([Call.sendLogs batch], w') ∧
      batch.length = n ∧ ∀ e ∈ batch, EntryFacts true c e := by
  have hb : (Cli.entry c).ensures (EntryFacts true c) := entryOf_facts true c
  obtain ⟨new, w2, hn, hall, hrun⟩ :=
    fillLoop_spec hb (fun _ => []) n [] (List.replicate n LogEntry.zero) [] w (by simp)
  refine ⟨new, w2, ?_, hn, hall⟩
  simp only [List.length_nil, List.nil_append] at hrun
  simp [Cli.tick, hrun]

end LogsTesting

namespace LogsTesting

theorem EntryFacts.wellFormed {cli : Bool} {c : Category} {e : LogEntry}
    (h : EntryFacts cli c e) : WellFormed e :=
  ⟨h.timestamp, h.level, h.environment⟩

/-- C7: in every world, one tick of each web-server generator returns, and its
calls are: `broadcastLog` on each entry of a batch, one by one in batch order,
and after all of them a single `bulkIndexLogs` on that same batch. So the
sequence of broadcast entries equals the batch shipped, element for element. -/
theorem tick_broadcasts_then_ships (c : Category) (w : World) :
    ∃ batch calls w', Web.tick c w = some (calls, w') ∧
      calls = batch.map Call.broadcastLog ++ [Call.bulkIndexLogs batch] ∧
      broadcasts calls = batch ∧ shipped calls = [batch] := by
  obtain ⟨batch, w', htick, _, _⟩ := web_tick_spec c w
  refine ⟨batch, _, w', htick, rfl, ?_, ?_⟩
  · simp [broadcasts_append, broadcasts_map, broadcasts]
  · simp [shipped_append, shipped_map, shipped]

/-- C8: for both programs, every category and every world (so every outcome of
the random draws and of the clock), building an entry never indexes out of
range (it returns) and the entry has a non-empty timestamp, a level among
INFO, WARN, ERROR, DEBUG and an environment among production, staging,
development; the same holds of every entry broadcast or shipped by a tick of a
web-server generator and of every entry shipped by a tick of a command-line
generator with batch size `n`. -/
theorem emitted_entries_well_formed (cli : Bool) (c : Category) (w : World) (n : Nat) :
    (∃ e w', entryOf cli c w = some (e, w') ∧ WellFormed e) ∧
    (∃ calls w', Web.tick c w = some (calls, w') ∧
      (∀ e ∈ broadcasts calls, WellFormed e) ∧ ∀ b ∈ shipped calls, ∀ e ∈ b, WellFormed e) ∧
    (∃ calls w', Cli.tick (n : Int) c w = some (calls, w') ∧
      ∀ b ∈ shipped calls, ∀ e ∈ b, WellFormed e) := by
  refine ⟨?_, ?_, ?_⟩
  · obtain ⟨e, w', he, hf⟩ := entryOf_facts cli c w
    exact ⟨e, w', he, hf.wellFormed⟩
  · obtain ⟨batch, w', htick, _, hall⟩ := web_tick_spec c w
    refine ⟨_, w', htick, ?_, ?_⟩
    · intro e he
      simp [broadcasts_append, broadcasts_map, broadcasts] at he
      exact (hall e he).wellFormed
    · intro b hb e he
      simp [shipped_append, shipped_map, shipped] at hb
      subst hb
      exact (hall e he).wellFormed
  · obtain ⟨batch, w', htick, _, hall⟩ := cli_tick_spec n c w
    refine ⟨_, w', htick, ?_⟩
    intro b hb e he
    simp [shipped] at hb
    subst hb
    exact (hall e he).wellFormed

theorem mem_omitEmpty (isZero : Bool) (key k : String) (v : JsonValue) :
    k ∈ (omitEmpty isZero key v).map Prod.fst ↔ isZero = false ∧ k = key := by
  cases isZero <;> simp [omitEmpty]

/-- An optional key is in the JSON object exactly when its field is not the zero value. -/
theorem mem_jsonKeys (e : LogEntry) :
    ("status_code" ∈ e.jsonKeys ↔ e.StatusCode ≠ 0) ∧
    ("method" ∈ e.jsonKeys ↔ e.Method ≠ "") ∧
    ("path" ∈ e.jsonKeys ↔ e.Path ≠ "") ∧
    ("duration" ∈ e.jsonKeys ↔ e.Duration ≠ 0) ∧
    ("user_id" ∈ e.jsonKeys ↔ e.UserID ≠ "") ∧
    ("action" ∈ e.jsonKeys ↔ e.Action ≠ "") ∧
    ("metadata" ∈ e.jsonKeys ↔ e.Metadata ≠ none) := by
  simp only [LogEntry.jsonKeys, LogEntry.jsonFields, List.map_append, List.mem_append,
    mem_omitEmpty]
  refine ⟨?_, ?_, ?_, ?_, ?_, ?_, ?_⟩ <;> simp
  cases e.Metadata <;> simp

end LogsTesting

namespace LogsTesting

/-- C10 (as stated, refuted): the web-server API generator, with every raw draw
0, builds an entry whose duration is 0; `duration` is relevant to API events,
yet the key is absent from the JSON object. -/
theorem api_zero_duration_omitted :
    "duration" ∈ relevantKeys Category.api ∧
    (Web.apiEntry (World.const 0)).map
        (fun r => (r.1.Duration, r.1.Message, r.1.jsonKeys))
      = some (0, "HTTP GET /api/users completed in 0ms with status 200",
          ["timestamp", "level", "service", "message", "status_code", "method", "path",
            "environment"]) := by
  decide

/-- For both programs, every category and every world, the entry built has
this JSON object: an optional key is absent exactly when the generator does
not assign the field, or the key is `duration` and the value drawn is 0. -/
theorem jsonKeys_of_assigned (cli : Bool) (c : Category) (w : World) :
    ∃ e w', entryOf cli c w = some (e, w') ∧
      ∀ k ∈ optionalKeys,
        (k ∉ e.jsonKeys ↔ k ∉ assignedKeys cli c ∨ (k = "duration" ∧ e.Duration = 0)) := by
  obtain ⟨e, w', he, hf⟩ := entryOf_facts cli c w
  obtain ⟨k1, k2, k3, k4, k5, k6, k7⟩ := mem_jsonKeys e
  refine ⟨e, w', he, ?_⟩
  intro k hk
  simp only [optionalKeys, List.mem_cons, List.mem_singleton, List.not_mem_nil, or_false] at hk
  rcases hk with rfl | rfl | rfl | rfl | rfl | rfl | rfl
  · rw [k1, hf.statusCode]; simp
  · rw [k2, hf.method]; simp
  · rw [k3, hf.path]; simp
  · rw [k4]
    constructor
    · intro h; right; exact ⟨rfl, not_not.mp h⟩
    · rintro (h | ⟨_, h⟩)
      · simp [hf.duration h]
      · simp [h]
  · rw [k5, hf.userID]; simp
  · rw [k6, hf.action]; simp
  · rw [k7, hf.metadata]; simp

end LogsTesting

/-! ## Batch sink -/

namespace LogsTesting

/-- One call of `client.Do` puts at most as many POSTs on the network as it may make requests. -/
theorem follow_posts (answer : Nat → Answer) :
    ∀ (fuel k : Nat) (isPost : Bool) (posts : Nat),
      (follow answer fuel k isPost posts).posts ≤ posts + fuel := by
  intro fuel
  induction fuel with
  | zero => intro k isPost posts; simp [follow]
  | succ fuel ih =>
    intro k isPost posts
    have h1 := ih (k + 1) false (if isPost = true then posts + 1 else posts)
    have h2 := ih (k + 1) isPost (if isPost = true then posts + 1 else posts)
    have hp : (if isPost = true then posts + 1 else posts) ≤ posts + 1 := by
      split_ifs <;> omega
    unfold follow
    generalize (if isPost = true then posts + 1 else posts) = q at h1 h2 hp ⊢
    cases answer k with
    | networkError => simp only; omega
    | response status body location =>
      simp only
      split_ifs
      · omega
      · omega
      · simp only; omega

theorem sendLogs_accepted_iff (sink : Sink) (logs : List LogEntry) :
    (sendLogs sink logs).failed = false ↔
      ∃ buf status body, encodeBatch logs = some buf ∧ sink.urlValid = true ∧
        (clientDo (sink.answer buf)).reply = Reply.response status body ∧ status < 400 := by
  cases henc : encodeBatch logs with
  | none => simp [sendLogs, henc, Delivery.failed, Line.isError]
  | some buf =>
    cases hurl : sink.urlValid with
    | false => simp [sendLogs, henc, hurl, Delivery.failed, Line.isError]
    | true =>
      cases hdo : clientDo (sink.answer buf) with
      | mk reply n =>
        cases reply with
        | networkError => simp [sendLogs, henc, hurl, hdo, Delivery.failed, Line.isError]
        | response status body =>
          by_cases hs : status ≥ 400
          · have : ¬ status < 400 := by omega
            simp [sendLogs, henc, hurl, hdo, Delivery.failed, Line.isError, hs, this]
          · have : status < 400 := by omega
            simp [sendLogs, henc, hurl, hdo, Delivery.failed, Line.isError, hs, this]

theorem bulkIndexLogs_accepted_iff (sink : Sink) (logs : List LogEntry) :
    (bulkIndexLogs sink logs).failed = false ↔
      ∃ buf status body, encodeBatch logs = some buf ∧ sink.urlValid = true ∧
        (clientDo (sink.answer buf)).reply = Reply.response status body ∧ status < 400 := by
  cases henc : encodeBatch logs with
  | none => simp [bulkIndexLogs, henc, Delivery.failed, Line.isError]
  | some buf =>
    cases hurl : sink.urlValid with
    | false => simp [bulkIndexLogs, henc, hurl, Delivery.failed, Line.isError]
    | true =>
      cases hdo : clientDo (sink.answer buf) with
      | mk reply n =>
        cases reply with
        | networkError => simp [bulkIndexLogs, henc, hurl, hdo, Delivery.failed, Line.isError]
        | response status body =>
          by_cases hs : status ≥ 400
          · have : ¬ status < 400 := by omega
            simp [bulkIndexLogs, henc, hurl, hdo, Delivery.failed, Line.isError, hs, this]
          · have : status < 400 := by omega
            simp [bulkIndexLogs, henc, hurl, hdo, Delivery.failed, Line.isError, hs, this]

theorem sendLogs_calls (sink : Sink) (logs : List LogEntry) :
    (sendLogs sink logs).doCalls ≤ 1 ∧ (sendLogs sink logs).posts ≤ 10 ∧
      (Line.successfullySent logs.length ∈ (sendLogs sink logs).printed ↔
        (sendLogs sink logs).failed = false) := by
  cases henc : encodeBatch logs with
  | none => simp [sendLogs, henc, Delivery.failed, Line.isError]
  | some buf =>
    cases hurl : sink.urlValid with
    | false => simp [sendLogs, henc, hurl, Delivery.failed, Line.isError]
    | true =>
      have hp := follow_posts (sink.answer buf) 10 0 true 0
      cases hdo : clientDo (sink.answer buf) with
      | mk reply n =>
        have hn : n ≤ 10 := by
          have h : (clientDo (sink.answer buf)).posts = n := by rw [hdo]
          unfold clientDo at h
          omega
        cases reply with
        | networkError => simp [sendLogs, henc, hurl, hdo, Delivery.failed, Line.isError, hn]
        | response status body =>
          by_cases hs : status ≥ 400 <;>
            simp [sendLogs, henc, hurl, hdo, Delivery.failed, Line.isError, hs, hn]

theorem bulkIndexLogs_calls (sink : Sink) (logs : List LogEntry) :
    (bulkIndexLogs sink logs).doCalls ≤ 1 ∧ (bulkIndexLogs sink logs).posts ≤ 10 := by
  cases henc : encodeBatch logs with
  | none => simp [bulkIndexLogs, henc]
  | some buf =>
    cases hurl : sink.urlValid with
    | false => simp [bulkIndexLogs, henc, hurl]
    | true =>
      have hp := follow_posts (sink.answer buf) 10 0 true 0
      cases hdo : clientDo (sink.answer buf) with
      | mk reply n =>
        have hn : n ≤ 10 := by
          have h : (clientDo (sink.answer buf)).posts = n := by rw [hdo]
          unfold clientDo at h
          omega
        cases reply with
        | networkError => simp [bulkIndexLogs, henc, hurl, hdo, hn]
        | response status body =>
          by_cases hs : status ≥ 400 <;> simp [bulkIndexLogs, henc, hurl, hdo, hs, hn]

/-- A redirect is followed inside the one call of `client.Do`: with a 307 the
batch is posted twice, and the delivery is judged by the final response. -/
theorem redirect_followed_within_one_call :
    sendLogs redirectOnceSink [LogEntry.zero]
      = { printed := [Line.successfullySent 1], doCalls := 1, posts := 2 } ∧
    bulkIndexLogs redirectOnceSink [LogEntry.zero]
      = { printed := [], doCalls := 1, posts := 2 } := by
  decide

/-- C9 (as stated, refuted): 304 is not a success code, yet when the sink
answers 304 `sendLogs` prints `Successfully sent 1 logs` and no error, and
`bulkIndexLogs` prints nothing: the delivery is treated as accepted. -/
theorem not_modified_treated_as_accepted :
    isSuccessCode 304 = false ∧
    sendLogs notModifiedSink [LogEntry.zero]
      = { printed := [Line.successfullySent 1], doCalls := 1, posts := 1 } ∧
    (sendLogs notModifiedSink [LogEntry.zero]).failed = false ∧
    bulkIndexLogs notModifiedSink [LogEntry.zero]
      = { printed := [], doCalls := 1, posts := 1 } ∧
    (bulkIndexLogs notModifiedSink [LogEntry.zero]).failed = false := by
  decide

/-- C9 (amended): for every batch and every behaviour of the sink,
`bulkIndexLogs` and `sendLogs` return, having called `client.Do` at most once
(no retry; redirects are followed inside that call); the delivery is treated
as accepted only when the batch encodes, the request is built and `client.Do`
gives a response with a status code below 400, and as failed otherwise, so on
a status code of 400 or above, on a network error and on a serialization
error; `sendLogs` prints `Successfully sent` exactly when it treats the
delivery as accepted, which it does for every success code. -/
theorem delivery_outcome (sink : Sink) (logs : List LogEntry) :
    (bulkIndexLogs sink logs).doCalls ≤ 1 ∧ (sendLogs sink logs).doCalls ≤ 1 ∧
    ((bulkIndexLogs sink logs).failed = false ↔
      ∃ buf status body, encodeBatch logs = some buf ∧ sink.urlValid = true ∧
        (clientDo (sink.answer buf)).reply = Reply.response status body ∧ status < 400) ∧
    ((sendLogs sink logs).failed = false ↔
      ∃ buf status body, encodeBatch logs = some buf ∧ sink.urlValid = true ∧
        (clientDo (sink.answer buf)).reply = Reply.response status body ∧ status < 400) ∧
    (Line.successfullySent logs.length ∈ (sendLogs sink logs).printed ↔
      (sendLogs sink logs).failed = false) ∧
    (∀ buf status body, encodeBatch logs = some buf → sink.urlValid = true →
      (clientDo (sink.answer buf)).reply = Reply.response status body →
      isSuccessCode status = true →
      (bulkIndexLogs sink logs).failed = false ∧
        (sendLogs sink logs).printed = [Line.successfullySent logs.length]) := by
  refine ⟨(bulkIndexLogs_calls sink logs).1, (sendLogs_calls sink logs).1,
    bulkIndexLogs_accepted_iff sink logs, sendLogs_accepted_iff sink logs,
    (sendLogs_calls sink logs).2.2, ?_⟩
  intro buf status body henc hurl hrep hok
  have hlt : status < 400 := by
    simp [isSuccessCode] at hok
    omega
  refine ⟨(bulkIndexLogs_accepted_iff sink logs).mpr ⟨buf, status, body, henc, hurl, hrep, hlt⟩, ?_⟩
  have hnot : ¬ status ≥ 400 := by omega
  cases hdo : clientDo (sink.answer buf) with
  | mk reply n =>
    rw [hdo] at hrep
    simp only at hrep
    subst hrep
    simp [sendLogs, henc, hurl, hdo, hnot]

end LogsTesting

/-! ## Batch sizes and the API message -/

namespace LogsTesting

/-- Batch sizes, all cases: in every world, one tick of each web-server
generator produces a batch
(broadcast entry by entry, then shipped) of at least 2 and at most 5 entries;
one tick of each command-line generator, for every value of the flag
`-batch-size`, hands to `sendLogs` a single batch of exactly that many entries,
the only other outcome being the panic of `make` on a negative size, in which
case no batch is produced at all. -/
theorem batch_size_bounds (c : Category) (w : World) (batchSize : Int) :
    (∃ batch w',
      Web.tick c w = some (batch.map Call.broadcastLog ++ [Call.bulkIndexLogs batch], w') ∧
      2 ≤ batch.length ∧ batch.length ≤ 5) ∧
    ((∃ batch w', Cli.tick batchSize c w = some ([Call.sendLogs batch], w') ∧
        (batch.length : Int) = batchSize) ∨
      (batchSize < 0 ∧ Cli.tick batchSize c w = none)) := by
  refine ⟨?_, ?_⟩
  · obtain ⟨batch, w', htick, hlen, _⟩ := web_tick_spec c w
    have hlt : w.rand w.rpos % 4 < 4 := Nat.mod_lt _ (by decide)
    exact ⟨batch, w', htick, by omega, by omega⟩
  · by_cases hneg : batchSize < 0
    · right
      exact ⟨hneg, by simp [Cli.tick, hneg]⟩
    · left
      have hnn : 0 ≤ batchSize := Int.not_lt.mp hneg
      obtain ⟨batch, w', htick, hlen, _⟩ := cli_tick_spec batchSize.toNat c w
      rw [Int.toNat_of_nonneg hnn] at htick
      refine ⟨batch, w', htick, ?_⟩
      rw [hlen]
      exact Int.toNat_of_nonneg hnn

/-- In an API entry of either program the message is the format applied to a
method of `httpMethods`, a path of `apiPaths`, and the entry's own duration and
status code; the fields `Method` and `Path` are some method and some path. -/
theorem apiEntry_message (cli : Bool) :
    (entryOf cli Category.api).ensures (fun e =>
      ∃ m ∈ httpMethods, ∃ p ∈ apiPaths,
        e.Message = apiMessage m p e.Duration e.StatusCode ∧
        e.Method ∈ httpMethods ∧ e.Path ∈ apiPaths) := by
  cases cli
  · show Web.apiEntry.ensures _
    unfold Web.apiEntry
    refine ensures_draw (by decide) (by decide) fun statusCode _ => ?_
    refine ensures_bind (ensures_intn 1000 (by decide)) fun duration _ => ?_
    refine ensures_bind ensures_now fun timestamp _ => ?_
    refine ensures_draw (by decide) (by decide) fun level _ => ?_
    refine ensures_draw (by decide) (by decide) fun service _ => ?_
    refine ensures_draw (by decide) (by decide) fun msgMethod hmm => ?_
    refine ensures_draw (by decide) (by decide) fun msgPath hmp => ?_
    refine ensures_draw (by decide) (by decide) fun method hmethod => ?_
    refine ensures_draw (by decide) (by decide) fun path hpath => ?_
    refine ensures_draw (by decide) (by decide) fun environment _ => ?_
    exact ensures_pure _ ⟨msgMethod, hmm, msgPath, hmp, rfl, hmethod, hpath⟩
  · show Cli.apiEntry.ensures _
    unfold Cli.apiEntry
    refine ensures_draw (by decide) (by decide) fun statusCode _ => ?_
    refine ensures_bind (ensures_intn 1000 (by decide)) fun duration _ => ?_
    refine ensures_bind ensures_now fun timestamp _ => ?_
    refine ensures_draw (by decide) (by decide) fun level _ => ?_
    refine ensures_draw (by decide) (by decide) fun service _ => ?_
    refine ensures_draw (by decide) (by decide) fun msgMethod hmm => ?_
    refine ensures_draw (by decide) (by decide) fun msgPath hmp => ?_
    refine ensures_draw (by decide) (by decide) fun method hmethod => ?_
    refine ensures_draw (by decide) (by decide) fun path hpath => ?_
    refine ensures_draw (by decide) (by decide) fun environment _ => ?_
    exact ensures_pure _ ⟨msgMethod, hmm, msgPath, hmp, rfl, hmethod, hpath⟩

/-- C12 (the code departs from the claim): with the raw draws `mismatchDraws`
the API generator of the web server, and likewise the one of the command-line
tool, builds an entry whose message names method GET and path /api/users while
the fields of the same entry are method POST and path /api/products; the
duration 42 and the status code 200 of the message are those of the fields. So
the message is not the format applied to the entry's own four fields. -/
theorem api_message_names_other_method_and_path :
    (Web.apiEntry (World.ofDraws mismatchDraws)).map (fun r => (r.1.Message, r.1.Method, r.1.Path))
      = some ("HTTP GET /api/users completed in 42ms with status 200", "POST",
          "/api/products") ∧
    (Web.apiEntry (World.ofDraws mismatchDraws)).map (fun r => (r.1.Duration, r.1.StatusCode))
      = some (42, 200) ∧
    (Web.apiEntry (World.ofDraws mismatchDraws)).map
        (fun r => decide
          (r.1.Message = apiMessage r.1.Method r.1.Path r.1.Duration r.1.StatusCode))
      = some false ∧
    (Cli.apiEntry (World.ofDraws mismatchDraws)).map (fun r => (r.1.Message, r.1.Method, r.1.Path))
      = some ("HTTP GET /api/users completed in 42ms with status 200", "POST",
          "/api/products") ∧
    (Cli.apiEntry (World.ofDraws mismatchDraws)).map
        (fun r => decide
          (r.1.Message = apiMessage r.1.Method r.1.Path r.1.Duration r.1.StatusCode))
      = some false := by
  decide

end LogsTesting

/-! ## Field presence by category, and batch sizes revisited -/

namespace LogsTesting

/-- Outside the fields left open, a generator assigns an optional field exactly
when the field is relevant to its category. -/
theorem assigned_iff_relevant (cli : Bool) (c : Category) :
    ∀ k ∈ optionalKeys, leftOpen cli c k = false →
      (k ∈ assignedKeys cli c ↔ k ∈ relevantKeys c) := by
  cases cli <;> cases c <;> decide

/-- What the command-line tool fills differently: with every raw draw 7 its
database event carries `method` and `path` and no `action`, where the one of
the web server carries `action`; its user-activity event carries `metadata`,
the one of the web server does not. -/
theorem cli_fields_differ_from_web :
    (Cli.databaseEntry (World.const 7)).map (fun r => r.1.jsonKeys)
      = some ["timestamp", "level", "service", "message", "method", "path", "duration",
          "metadata", "environment"] ∧
    (Web.databaseEntry (World.const 7)).map (fun r => r.1.jsonKeys)
      = some ["timestamp", "level", "service", "message", "duration", "action", "metadata",
          "environment"] ∧
    (Cli.userActivityEntry (World.const 7)).map (fun r => r.1.jsonKeys)
      = some ["timestamp", "level", "service", "message", "user_id", "action", "metadata",
          "environment"] ∧
    (Web.userActivityEntry (World.const 7)).map (fun r => r.1.jsonKeys)
      = some ["timestamp", "level", "service", "message", "user_id", "action",
          "environment"] := by
  decide

/-- C10 (amended): for every event built by any generator of either program,
in every world, and every optional key other than those left open (`method`,
`path`, `action` of command-line database events, `metadata` of command-line
user-activity events): the key is absent from the JSON object exactly when the
field is irrelevant to the event's category, or the key is `duration` and the
value drawn is 0. -/
theorem json_field_presence (cli : Bool) (c : Category) (w : World) :
    ∃ e w', entryOf cli c w = some (e, w') ∧
      ∀ k ∈ optionalKeys, leftOpen cli c k = false →
        (k ∉ e.jsonKeys ↔ k ∉ relevantKeys c ∨ (k = "duration" ∧ e.Duration = 0)) := by
  obtain ⟨e, w', he, hk⟩ := jsonKeys_of_assigned cli c w
  refine ⟨e, w', he, ?_⟩
  intro k hmem hopen
  rw [hk k hmem, assigned_iff_relevant cli c k hmem hopen]

/-- The amended C10 statement at the database generator of the command-line
tool, every raw draw being 7. -/
theorem json_field_presence_witness :
    ∃ e w', entryOf true Category.database (World.const 7) = some (e, w') ∧
      ∀ k ∈ optionalKeys, leftOpen true Category.database k = false →
        (k ∉ e.jsonKeys ↔
          k ∉ relevantKeys Category.database ∨ (k = "duration" ∧ e.Duration = 0)) :=
  json_field_presence true Category.database (World.const 7)

/-- C11 (as stated, refuted): with the flag `-batch-size` set to -1 the tick of
each command-line generator panics in `make`; no call of `sendLogs` happens,
so no batch of that many events is handed over. -/
theorem negative_batch_size_ships_nothing :
    (Cli.tick (-1) Category.api (World.const 0)).map (fun r => r.1) = none ∧
    (Cli.tick (-1) Category.database (World.const 0)).map (fun r => r.1) = none ∧
    (Cli.tick (-1) Category.userActivity (World.const 0)).map (fun r => r.1) = none ∧
    (Cli.tick (-1) Category.systemMetrics (World.const 0)).map (fun r => r.1) = none := by
  decide

/-- C11 (amended): in every world, one tick of each web-server generator
produces a batch of at least 2 and at most 5 entries; one tick of each
command-line generator, for every non-negative value of the flag
`-batch-size`, returns and hands to `sendLogs` a single batch of exactly that
many entries. -/
theorem batch_size_of_nonneg (c : Category) (w : World) (batchSize : Int)
    (hnn : 0 ≤ batchSize) :
    (∃ batch w',
      Web.tick c w = some (batch.map Call.broadcastLog ++ [Call.bulkIndexLogs batch], w') ∧
      2 ≤ batch.length ∧ batch.length ≤ 5) ∧
    (∃ batch w', Cli.tick batchSize c w = some ([Call.sendLogs batch], w') ∧
      (batch.length : Int) = batchSize) := by
  obtain ⟨hweb, hcli⟩ := batch_size_bounds c w batchSize
  refine ⟨hweb, ?_⟩
  rcases hcli with h | ⟨hneg, _⟩
  · exact h
  · omega

/-- The amended C11 statement at batch size 3 for the API generators, every
raw draw being 0. -/
theorem batch_size_of_nonneg_witness :
    (∃ batch w',
      Web.tick Category.api (World.const 0)
        = some (batch.map Call.broadcastLog ++ [Call.bulkIndexLogs batch], w') ∧
      2 ≤ batch.length ∧ batch.length ≤ 5) ∧
    (∃ batch w', Cli.tick 3 Category.api (World.const 0) = some ([Call.sendLogs batch], w') ∧
      (batch.length : Int) = 3) :=
  batch_size_of_nonneg Category.api (World.const 0) 3 (by decide)

end LogsTesting
